import Mathlib

/-!
Shallow embedding of `segmentation/module.py` (class `PatchClassificationModule`)
from the ProtoPNet segmentation repository, together with theorems checking the
natural-language specification against the code.

Python floats are modelled by rationals, tensors by lists of rationals,
`collections.Counter` objects by functions from natural numbers to natural
numbers, and the external random source used by `torch.nn.init.uniform_` by an
oracle function passed as an argument.  Code that raises an exception is
modelled with `Except String`.
-/

namespace ProtoPNet

/-! ## Loss computation in `_step` (lines 356-370) -/

/-- Loss weights configured on the module (constructor arguments
`loss_weight_crs_ent`, `loss_weight_clst`, `loss_weight_sep`,
`loss_weight_proto_dist`, `loss_weight_l1`, `loss_weight_kld`,
`loss_weight_cls_act`). -/
structure LossWeights where
  crs_ent : ℚ
  clst : ℚ
  sep : ℚ
  proto_dist : ℚ
  l1 : ℚ
  kld : ℚ
  cls_act : ℚ
deriving DecidableEq

/-- The per-output loss actually computed by `_step` (module.py lines 356-370):
the cluster-cost, separation and prototype-distance terms are commented out in
the source; the KLD term is added only on the branch `loss_weight_kld > 0`. -/
def stepLoss (w : LossWeights) (cross_entropy kld_loss l1 : ℚ) : ℚ :=
  if 0 < w.kld then
    w.crs_ent * cross_entropy + w.kld * kld_loss + w.l1 * l1
  else
    w.crs_ent * cross_entropy + w.l1 * l1

/-- The loss as the specification sentence describes it: a weighted combination
of the cross-entropy, clustering, separation, KLD and L1 terms, each scaled by
its configured weight.  This definition follows the words of the claim and is
compared against `stepLoss`, which is translated from the source. -/
def claimedStepLoss (w : LossWeights)
    (cross_entropy cluster_cost separation kld_loss l1 : ℚ) : ℚ :=
  w.crs_ent * cross_entropy + w.clst * cluster_cost + w.sep * separation +
    w.kld * kld_loss + w.l1 * l1

/-! ## Training phases and `configure_optimizers` (lines 127-135, 632-741) -/

/-- Parameter groups of the network that an optimizer can train.  `aspp`
stands for the eight ASPP weight/bias tensors listed in the warmup branch;
`features1x`, `features10x`, `features20x` are the groups returned by
`get_params(features, key)` in the joint branch with a `base` extractor;
`featuresAll` is `features.parameters()` in the joint branch without one. -/
inductive TrainedParams
  | addOnLayers
  | aspp
  | prototypeVectors
  | features1x
  | features10x
  | features20x
  | featuresAll
  | lastLayer
deriving DecidableEq

/-- One entry of the `optimizer_specs` list passed to `torch.optim.Adam`. -/
structure OptimizerSpec where
  params : List TrainedParams
  lr : ℚ
  weight_decay : Option ℚ
deriving DecidableEq

/-- Learning-rate / weight-decay configuration of the module. -/
structure OptimCfg where
  joint_optimizer_lr_features : ℚ
  joint_optimizer_lr_add_on_layers : ℚ
  joint_optimizer_lr_prototype_vectors : ℚ
  joint_optimizer_weight_decay : ℚ
  warm_optimizer_lr_add_on_layers : ℚ
  warm_optimizer_lr_prototype_vectors : ℚ
  warm_optimizer_weight_decay : ℚ
  last_layer_optimizer_lr : ℚ
deriving DecidableEq

/-- Which freeze/unfreeze routine the constructor applies for a training phase
(module.py lines 127-135): `warm_only` for phase 0, `joint` for phase 1,
`last_only` otherwise. -/
def trainingStartMode (phase : ℤ) : String :=
  if phase = 0 then "warm_only"
  else if phase = 1 then "joint"
  else "last_only"

/-- The `optimizer_specs` list built by `configure_optimizers`
(module.py lines 632-719), as a function of the training phase and of whether
`ppnet.features` has a `base` attribute and whether `ppnet.no_prototypes`
holds. -/
def configureOptimizers (oc : OptimCfg) (phase : ℤ)
    (hasBase noPrototypes : Bool) : List OptimizerSpec :=
  if phase = 0 then
    [ { params := [TrainedParams.addOnLayers, TrainedParams.aspp],
        lr := oc.warm_optimizer_lr_add_on_layers,
        weight_decay := some oc.warm_optimizer_weight_decay },
      { params := [TrainedParams.prototypeVectors],
        lr := oc.warm_optimizer_lr_prototype_vectors,
        weight_decay := none } ]
  else if phase = 1 then
    if hasBase then
      [ { params := [TrainedParams.features1x],
          lr := oc.joint_optimizer_lr_features,
          weight_decay := some oc.joint_optimizer_weight_decay },
        { params := [TrainedParams.features10x],
          lr := 10 * oc.joint_optimizer_lr_features,
          weight_decay := some oc.joint_optimizer_weight_decay },
        { params := [TrainedParams.features20x],
          lr := 10 * oc.joint_optimizer_lr_features,
          weight_decay := some oc.joint_optimizer_weight_decay },
        { params := [TrainedParams.addOnLayers],
          lr := oc.joint_optimizer_lr_add_on_layers,
          weight_decay := some oc.joint_optimizer_weight_decay },
        { params := [TrainedParams.prototypeVectors],
          lr := oc.joint_optimizer_lr_prototype_vectors,
          weight_decay := none } ]
    else if noPrototypes then
      [ { params := [TrainedParams.featuresAll],
          lr := oc.joint_optimizer_lr_features,
          weight_decay := some oc.joint_optimizer_weight_decay } ]
    else
      [ { params := [TrainedParams.featuresAll],
          lr := oc.joint_optimizer_lr_features,
          weight_decay := some oc.joint_optimizer_weight_decay },
        { params := [TrainedParams.addOnLayers],
          lr := oc.joint_optimizer_lr_add_on_layers,
          weight_decay := some oc.joint_optimizer_weight_decay },
        { params := [TrainedParams.prototypeVectors],
          lr := oc.joint_optimizer_lr_prototype_vectors,
          weight_decay := none } ]
  else
    [ { params := [TrainedParams.lastLayer],
        lr := oc.last_layer_optimizer_lr,
        weight_decay := none } ]

/-- All parameter groups appearing in the optimizer built for a phase. -/
def trainedParams (oc : OptimCfg) (phase : ℤ)
    (hasBase noPrototypes : Bool) : List TrainedParams :=
  (configureOptimizers oc phase hasBase noPrototypes).flatMap (·.params)

/-! ## Gradient accumulation and metric folding in `_step`
(lines 379-429 and the fields set up at lines 154-155) -/

/-- The per-batch metric buffers (`self.batch_metrics`, a `defaultdict(list)`
with keys `loss`, `cross_entropy`, `kld_loss`). -/
structure BatchMetrics where
  loss : List ℚ
  cross_entropy : List ℚ
  kld_loss : List ℚ
deriving DecidableEq

/-- The empty buffer (`defaultdict(list)`). -/
def BatchMetrics.empty : BatchMetrics := ⟨[], [], []⟩

/-- One split entry of `self.metrics` (see `reset_metrics`). -/
structure SplitMetrics where
  n_correct : ℕ
  n_batches : ℕ
  n_patches : ℕ
  cross_entropy : ℚ
  kld_loss : ℚ
  loss : ℚ
deriving DecidableEq

/-- Mean of a list of rationals (`np.mean`); the code only takes means of
nonempty buffers. -/
def listMean (l : List ℚ) : ℚ := l.sum / l.length

/-- State touched by the accumulation logic of `_step`. -/
structure StepAccumState where
  iter_steps : ℕ
  batch_metrics : BatchMetrics
  metrics : SplitMetrics
deriving DecidableEq

/-- The bookkeeping tail of `_step` (module.py lines 379-429): append the
batch means, advance `iter_steps`, reset it and step the optimizer when it
reaches `iter_size`, and fold the buffered per-batch means into the split
metrics whenever `iter_steps` returns to 0.  The returned boolean records
whether `optimizer.step()` was called. -/
def stepAccounting (iter_size : ℕ) (isTrain : Bool)
    (mcs_loss mcs_cross_entropy mcs_kld_loss : ℚ)
    (s : StepAccumState) : StepAccumState × Bool :=
  let bm : BatchMetrics :=
    { loss := s.batch_metrics.loss ++ [mcs_loss],
      cross_entropy := s.batch_metrics.cross_entropy ++ [mcs_cross_entropy],
      kld_loss := s.batch_metrics.kld_loss ++ [mcs_kld_loss] }
  let steps1 := s.iter_steps + 1
  let (steps2, stepped) :=
    if isTrain then
      if steps1 = iter_size then (0, true) else (steps1, false)
    else
      if steps1 = iter_size then (0, false) else (steps1, false)
  if steps2 = 0 then
    ({ iter_steps := 0,
       batch_metrics := BatchMetrics.empty,
       metrics :=
        { s.metrics with
          loss := s.metrics.loss + listMean bm.loss,
          cross_entropy := s.metrics.cross_entropy + listMean bm.cross_entropy,
          kld_loss := s.metrics.kld_loss + listMean bm.kld_loss,
          n_batches := s.metrics.n_batches + 1 } }, stepped)
  else
    ({ iter_steps := steps2, batch_metrics := bm, metrics := s.metrics }, stepped)

/-! ## Rebalancing statistics collected during training steps (lines 398-415) -/

/-- One flattened patch of a training batch: its predicted class
(`output_class` entry) and its row of `patch_activations`. -/
structure Patch where
  predClass : ℕ
  activations : List ℚ
deriving DecidableEq

/-- Entry `(p, c)` of the prototype-class identity matrix
(`ppnet.prototype_class_identity`), read with out-of-range defaults of 0. -/
def idAt (identity : List (List ℚ)) (p c : ℕ) : ℚ :=
  (identity.getD p []).getD c 0

/-- The adjusted distance `patch_activations + (1 - output_class_mask) * 10e6`
of a patch to prototype `p` (module.py line 403). -/
def adjustedDistance (identity : List (List ℚ)) (pt : Patch) (p : ℕ) : ℚ :=
  pt.activations.getD p 0 + (1 - idAt identity p pt.predClass) * 10000000

/-- Index of the first minimal element of a list (`torch.argmin` returns the
index of the first minimal value). -/
def argminIdx : List ℚ → ℕ
  | [] => 0
  | [_] => 0
  | x :: y :: rest =>
    let j := argminIdx (y :: rest)
    if (y :: rest).getD j 0 < x then j + 1 else 0

/-- `nearest_patch_prototypes` entry for one patch (module.py line 404). -/
def nearestPatchPrototype (identity : List (List ℚ)) (numProtos : ℕ)
    (pt : Patch) : ℕ :=
  argminIdx ((List.range numProtos).map (adjustedDistance identity pt))

/-- The two `Counter` objects in `self.rebalancing_stats`. -/
structure RebalStats where
  total : ℕ → ℕ
  nearest : ℕ → ℕ

/-- The patches whose `output_class` entry is `c` (`is_pred_cls`). -/
def predClassPatches (patches : List Patch) (c : ℕ) : List Patch :=
  patches.filter (fun pt => decide (pt.predClass = c))

/-- The counter increments for one prototype of the predicted class
(module.py lines 411-415): the nearest-count grows by the number of class
patches whose nearest prototype it is, the total by the number of all class
patches. -/
def statsStep (identity : List (List ℚ)) (numProtos : ℕ) (clsPatches : List Patch)
    (st : RebalStats) (proto : ℕ) : RebalStats :=
  { nearest := fun q =>
      if q = proto then
        st.nearest q + (clsPatches.filter (fun pt =>
          decide (nearestPatchPrototype identity numProtos pt = proto))).length
      else st.nearest q,
    total := fun q =>
      if q = proto then st.total q + clsPatches.length else st.total q }

/-- The update of the rebalancing counters for one predicted class `c`
(module.py lines 406-415): when some patches are predicted as `c`, every
prototype of `c` has its counters advanced by `statsStep`. -/
def updateStatsClass (identity : List (List ℚ)) (numProtos : ℕ)
    (clsProtos : List (List ℕ)) (patches : List Patch)
    (stats : RebalStats) (c : ℕ) : RebalStats :=
  if 0 < (predClassPatches patches c).length then
    (clsProtos.getD c []).foldl
      (statsStep identity numProtos (predClassPatches patches c)) stats
  else stats

/-- The whole statistics update of one training step with rebalancing enabled
(the loop over `cls_num` at module.py lines 406-415). -/
def updateRebalancingStats (identity : List (List ℚ)) (numProtos numClasses : ℕ)
    (clsProtos : List (List ℕ)) (patches : List Patch)
    (stats : RebalStats) : RebalStats :=
  (List.range numClasses).foldl (updateStatsClass identity numProtos clsProtos patches) stats

/-! ## `rebalance_prototypes` (lines 432-538) -/

/-- Configuration fields of the module consumed by prototype rebalancing. -/
structure RebalConfig where
  num_prototypes : ℕ
  num_classes : ℕ
  proto_dim : ℕ
  prototype_rebalancing : Option ℕ
  prototype_rebalancing_threshold : ℚ
  prototype_initialization_method : String
  prototype_rebalance_every : ℕ
  randomize_all_below_threshold : Bool

/-- The mutable state read and written by `rebalance_prototypes`:
the class-identity matrix, the prototype vectors (flattened), the helper
collections `cls_prototypes` and `proto2cls`, and the rebalancing counters. -/
structure RebalState where
  identity : List (List ℚ)
  vectors : List (List ℚ)
  clsProtos : List (List ℕ)
  proto2cls : ℕ → Option ℕ
  stats : RebalStats

/-- `prototypes_n_nearest[i] / total_cls_patches[i]` (module.py line 441). -/
def protoFrac (st : RebalState) (i : ℕ) : ℚ :=
  (st.stats.nearest i : ℚ) / (st.stats.total i : ℚ)

/-- `cls_proto_saturation` (module.py lines 436-446): per class, the minimum
fraction over its prototypes with a positive total, starting from fill 2.0. -/
def clsProtoSaturation (cfg : RebalConfig) (st : RebalState) : List ℚ :=
  (List.range cfg.num_prototypes).foldl (fun sat i =>
    if 0 < st.stats.total i then
      let frac := protoFrac st i
      let c := (st.proto2cls i).getD cfg.num_classes
      if frac < sat.getD c 2 then sat.set c frac else sat
    else sat) (List.replicate cfg.num_classes 2)

/-- `proto_nums` (module.py lines 437-442): prototypes with a positive patch
total, in ascending order. -/
def protoNumsList (cfg : RebalConfig) (st : RebalState) : List ℕ :=
  (List.range cfg.num_prototypes).filter (fun i => decide (0 < st.stats.total i))

/-- `np.argsort` over a list of rationals: the indices in ascending order of
value (the properties proved here do not depend on how ties are ordered, and
`np.argsort` leaves tie order unspecified for its default sort kind). -/
def argsortAsc (xs : List ℚ) : List ℕ :=
  (List.range xs.length).insertionSort (fun i j => xs.getD i 0 ≤ xs.getD j 0)

/-- `np.argsort(-xs)`: indices in descending order of value
(`top_classes_by_proto_saturation`, module.py line 463). -/
def argsortDesc (xs : List ℚ) : List ℕ :=
  (List.range xs.length).insertionSort (fun i j => xs.getD j 0 ≤ xs.getD i 0)

/-- Fuelled form of the `while` loop at module.py lines 476-477; the fuel is
`numClasses - clsI`, so running out of fuel is exactly the failure of the
`cls_i < num_classes` test. -/
def advanceClsIAux (sat : List ℚ) (top : List ℕ) : ℕ → ℕ → ℕ
  | 0, clsI => clsI
  | fuel + 1, clsI =>
    if 11 / 10 < sat.getD (top.getD clsI 0) 0 then advanceClsIAux sat top fuel (clsI + 1)
    else clsI

/-- The `while` loop at module.py lines 476-477: advance the class cursor past
classes whose saturation exceeds 1.1, stopping at `numClasses`. -/
def advanceClsI (numClasses : ℕ) (sat : List ℚ) (top : List ℕ) (clsI : ℕ) : ℕ :=
  advanceClsIAux sat top (numClasses - clsI) clsI

/-- Choice of `saturated_class` (module.py lines 479-485): `none` when the
cursor ran off the classes, when the candidate is the prototype's own class,
or when the candidate's saturation is below the rebalancing threshold. -/
def selectTarget (cfg : RebalConfig) (st : RebalState) (sat : List ℚ)
    (top : List ℕ) (clsI : ℕ) (protoNum : ℕ) : Option ℕ :=
  if clsI < cfg.num_classes then
    let t := top.getD clsI 0
    if st.proto2cls protoNum = some t ∨
        sat.getD t 0 < cfg.prototype_rebalancing_threshold then none
    else some t
  else none

/-- Elementwise sum of two prototype vectors. -/
def vecAdd (a b : List ℚ) : List ℚ := List.zipWith (· + ·) a b

/-- `cls_proto_mean` (module.py lines 503-507): mean of the vectors of the
given prototypes, starting from a zero vector of the prototype dimension. -/
def classMeanVec (dim : ℕ) (vectors : List (List ℚ)) (protos : List ℕ) : List ℚ :=
  (protos.foldl (fun acc p => vecAdd acc (vectors.getD p []))
    (List.replicate dim 0)).map (fun x => x / (protos.length : ℚ))

/-- Result of the move loop of `rebalance_prototypes`: the updated identity
matrix and vectors, the `any_moved` flag, the `randomized_prototypes` list
(which, as in the source, collects sort-domain indices `proto_ind`), and the
performed moves `(proto_num, saturated_class)` in order. -/
structure RebalLoopResult where
  identity : List (List ℚ)
  vectors : List (List ℚ)
  anyMoved : Bool
  randomized : List ℕ
  moves : List (ℕ × ℕ)
deriving DecidableEq

/-- The `for proto_ind in np.argsort(frac_top_proto)` loop of
`rebalance_prototypes` (module.py lines 470-515).  `sat`, `top`, `pn`, `fr`
are `cls_proto_saturation`, `top_classes_by_proto_saturation`, `proto_nums`
and `frac_top_proto`; the remaining arguments are the loop-carried cursor and
the evolving identity matrix and vectors.  An unimplemented initialization
method raises, modelled by `Except.error`. -/
def rebalanceLoop (cfg : RebalConfig) (rand : ℕ → List ℚ) (st : RebalState)
    (sat : List ℚ) (top : List ℕ) (pn : List ℕ) (fr : List ℚ) :
    List ℕ → ℕ → List (List ℚ) → List (List ℚ) → Except String RebalLoopResult
  | [], _, idn, vecs => .ok ⟨idn, vecs, false, [], []⟩
  | protoInd :: rest, clsI, idn, vecs =>
    if cfg.prototype_rebalancing_threshold ≤ fr.getD protoInd 0 then
      .ok ⟨idn, vecs, false, [], []⟩
    else
      let protoNum := pn.getD protoInd 0
      let clsIA := advanceClsI cfg.num_classes sat top clsI
      match selectTarget cfg st sat top clsIA protoNum with
      | none =>
        if cfg.randomize_all_below_threshold then
          match rebalanceLoop cfg rand st sat top pn fr rest clsIA idn
              (vecs.set protoNum (rand protoNum)) with
          | .ok r => .ok { r with randomized := protoInd :: r.randomized }
          | .error e => .error e
        else
          .ok ⟨idn, vecs, false, [], []⟩
      | some t =>
        let newVec : Except String (List ℚ) :=
          if cfg.prototype_initialization_method = "random" then
            .ok (rand protoNum)
          else if cfg.prototype_initialization_method = "mean" then
            .ok (classMeanVec cfg.proto_dim vecs (st.clsProtos.getD t []))
          else
            .error (String.append "Not implemented: "
              cfg.prototype_initialization_method)
        match newVec with
        | .error e => .error e
        | .ok nv =>
          match rebalanceLoop cfg rand st sat top pn fr rest (clsIA + 1)
              (idn.set protoNum ((List.replicate cfg.num_classes 0).set t 1))
              (vecs.set protoNum nv) with
          | .ok r => .ok { r with anyMoved := true, moves := (protoNum, t) :: r.moves }
          | .error e => .error e

/-- `cls_prototypes` as rebuilt from the identity matrix (module.py lines
528-533 and the identical construction at lines 137-143). -/
def buildClsProtos (identity : List (List ℚ)) (numClasses : ℕ) : List (List ℕ) :=
  (List.range numClasses).map (fun c =>
    (List.range identity.length).filter (fun p => decide (idAt identity p c = 1)))

/-- `proto2cls` as rebuilt from the identity matrix: the dict is filled class
by class in ascending order, so a prototype with several 1-entries would keep
the last (largest) class. -/
def buildProto2cls (identity : List (List ℚ)) (numClasses : ℕ) : ℕ → Option ℕ :=
  fun p => ((List.range numClasses).filter (fun c => decide (idAt identity p c = 1))).getLast?

/-- The move loop of `rebalance_prototypes` applied to the arguments computed
at module.py lines 433-470. -/
def rebalanceRun (cfg : RebalConfig) (rand : ℕ → List ℚ) (st : RebalState) :
    Except String RebalLoopResult :=
  let sat := clsProtoSaturation cfg st
  let pn := protoNumsList cfg st
  let fr := pn.map (protoFrac st)
  rebalanceLoop cfg rand st sat (argsortDesc sat) pn fr (argsortAsc fr) 0
    st.identity st.vectors

/-- Whole-call model of `rebalance_prototypes`: run the move loop, then, when
any prototype moved or the rebalance epoch counter is 0, rebuild the helper
collections from the new identity matrix (module.py lines 520-538). -/
def rebalancePrototypes (cfg : RebalConfig) (rand : ℕ → List ℚ)
    (epochCounter : ℕ) (st : RebalState) : Except String RebalState :=
  match rebalanceRun cfg rand st with
  | .error e => .error e
  | .ok r =>
    if r.anyMoved = true ∨ epochCounter = 0 then
      .ok { identity := r.identity, vectors := r.vectors,
            clsProtos := buildClsProtos r.identity cfg.num_classes,
            proto2cls := buildProto2cls r.identity cfg.num_classes,
            stats := st.stats }
    else
      .ok { st with identity := r.identity, vectors := r.vectors }

/-! ## `on_validation_epoch_end` (lines 558-594) -/

/-- `stage_key` (module.py lines 568-573). -/
def stageKey (phase : ℤ) : String :=
  if phase = 0 then "warmup" else if phase = 1 then "nopush" else "push"

/-- The module state read and written by `on_validation_epoch_end`. -/
structure ModuleState where
  rebal : RebalState
  best_acc : ℚ
  sanity_check_val : Bool
  rebalance_epoch_counter : ℕ
  val_n_correct : ℕ
  val_n_patches : ℕ

/-- `val_acc = metrics[val][n_correct] / metrics[val][n_patches]`. -/
def valAccuracy (ms : ModuleState) : ℚ :=
  (ms.val_n_correct : ℚ) / (ms.val_n_patches : ℚ)

/-- Guard at module.py line 581: rebalancing is configured and the global step
has reached `prototype_rebalancing`. -/
def qualifiesRebalance (cfg : RebalConfig) (globalStep : ℕ) : Bool :=
  match cfg.prototype_rebalancing with
  | some r0 => decide (r0 ≤ globalStep)
  | none => false

/-- Model of `on_validation_epoch_end` (module.py lines 558-594): save the
`_last` checkpoint, save the `_best` checkpoint and update `best_acc` when the
sanity check is over and the accuracy improved, then run the rebalancing block
and clear the sanity flag.  It returns the new state, the list of checkpoint
file names written (in order), and whether `rebalance_prototypes` was called. -/
def onValidationEpochEnd (cfg : RebalConfig) (rand : ℕ → List ℚ) (phase : ℤ)
    (globalStep : ℕ) (ms : ModuleState) :
    Except String (ModuleState × List String × Bool) :=
  let val_acc := valAccuracy ms
  let lastName := String.append (stageKey phase) "_last.pth"
  let bestName := String.append (stageKey phase) "_best.pth"
  let best1 :=
    if ms.sanity_check_val = false ∧ ms.best_acc < val_acc then val_acc
    else ms.best_acc
  let saves :=
    if ms.sanity_check_val = false ∧ ms.best_acc < val_acc then [lastName, bestName]
    else [lastName]
  if qualifiesRebalance cfg globalStep then
    if ms.rebalance_epoch_counter % cfg.prototype_rebalance_every = 0 then
      match rebalancePrototypes cfg rand ms.rebalance_epoch_counter ms.rebal with
      | .error e => .error e
      | .ok rb =>
        .ok ({ rebal := { rb with stats := ⟨fun _ => 0, fun _ => 0⟩ }
               best_acc := best1
               sanity_check_val := false
               rebalance_epoch_counter := ms.rebalance_epoch_counter + 1
               val_n_correct := ms.val_n_correct
               val_n_patches := ms.val_n_patches }, saves, true)
    else
      .ok ({ ms with
              best_acc := best1
              sanity_check_val := false
              rebalance_epoch_counter := ms.rebalance_epoch_counter + 1 },
           saves, false)
  else
    .ok ({ ms with best_acc := best1, sanity_check_val := false }, saves, false)

/-! ## Helper lemmas on lists -/

lemma getD_set_self {α : Type _} (l : List α) (i : ℕ) (x d : α) (h : i < l.length) :
    (l.set i x).getD i d = x := by
  simp [List.getD_eq_getElem?_getD, List.getElem?_set_self h]

lemma getD_set_ne {α : Type _} (l : List α) {i j : ℕ} (x d : α) (h : i ≠ j) :
    (l.set i x).getD j d = l.getD j d := by
  simp [List.getD_eq_getElem?_getD, List.getElem?_set_ne h]

lemma getD_range_map {β : Type _} (f : ℕ → β) (n i : ℕ) (d : β) (h : i < n) :
    ((List.range n).map f).getD i d = f i := by
  rw [List.getD_eq_getElem?_getD, List.getElem?_eq_getElem (by simpa using h)]
  simp

lemma getD_map_of_lt {α β : Type _} (f : α → β) (l : List α) (i : ℕ) (d : β) (dα : α)
    (h : i < l.length) :
    (l.map f).getD i d = f (l.getD i dα) := by
  rw [List.getD_eq_getElem?_getD, List.getElem?_eq_getElem (by simpa using h)]
  rw [List.getD_eq_getElem?_getD, List.getElem?_eq_getElem h]
  simp

/-! ## Theorems for the claims -/

/-- Weight assignment used for the C1 counterexample: weight 1 for the
cross-entropy, clustering, separation and L1 terms, weight 0 elsewhere. -/
def lossWeightsOneClst : LossWeights :=
  { crs_ent := 1, clst := 1, sep := 1, proto_dist := 0, l1 := 1, kld := 0, cls_act := 0 }

/-- C1 counterexample: with `loss_weight_clst = loss_weight_sep = 1`, a
cross-entropy of 1 and clustering/separation terms equal to 1, the loss the
code computes is 1, while the weighted combination the claim describes is 3:
the clustering and separation terms are commented out in `_step` and never
enter the loss. -/
theorem C1_counterexample :
    stepLoss lossWeightsOneClst 1 0 0 = 1 ∧
      claimedStepLoss lossWeightsOneClst 1 1 1 0 0 = 3 ∧
      stepLoss lossWeightsOneClst 1 0 0 ≠ claimedStepLoss lossWeightsOneClst 1 1 1 0 0 := by
  refine ⟨?_, ?_, ?_⟩ <;> norm_num [stepLoss, claimedStepLoss, lossWeightsOneClst]

/-- C1 (amended): for every step, the total loss computed in `_step` is the
cross-entropy term scaled by `loss_weight_crs_ent` plus the L1 term scaled by
`loss_weight_l1`, plus the KLD term scaled by `loss_weight_kld` exactly when
`loss_weight_kld > 0`; the clustering and separation terms are commented out
in the source and contribute nothing regardless of their weights. -/
theorem C1_loss_is_ce_kld_l1 (w : LossWeights) (ce kld l1 : ℚ) :
    stepLoss w ce kld l1 =
      w.crs_ent * ce + (if 0 < w.kld then w.kld * kld else 0) + w.l1 * l1 ∧
    ∀ clst sep : ℚ,
      stepLoss { w with clst := clst, sep := sep } ce kld l1 = stepLoss w ce kld l1 := by
  constructor
  · unfold stepLoss
    split <;> ring
  · intro clst sep
    unfold stepLoss
    rfl

/-- Optimizer configuration with all learning rates 1 (used by witnesses). -/
def ocOnes : OptimCfg := ⟨1, 1, 1, 1, 1, 1, 1, 1⟩

/-- C5 counterexample: in training phase 1 with a feature extractor that has
no `base` attribute and with `no_prototypes` set, `configure_optimizers`
trains neither the prototype vectors nor the add-on layers, contradicting the
claim that phase 1 always optimizes features, add-on layers and prototype
vectors. -/
theorem C5_counterexample :
    TrainedParams.prototypeVectors ∉ trainedParams ocOnes 1 false true ∧
      TrainedParams.addOnLayers ∉ trainedParams ocOnes 1 false true := by
  decide

/-- C5 (amended): the training phase determines the trained parameter groups.
Phase 0 applies `warm_only` and optimizes the add-on layers plus ASPP
parameters and the prototype vectors; phase 1 applies `joint` and optimizes
features, add-on layers and prototype vectors, except that with a base-less
feature extractor and `no_prototypes` set only the features are optimized;
any other phase applies `last_only` and optimizes only the last layer. -/
theorem C5_phase_param_groups (oc : OptimCfg) (phase : ℤ) (hasBase noPrototypes : Bool) :
    (phase = 0 → trainingStartMode phase = "warm_only" ∧
      trainedParams oc phase hasBase noPrototypes =
        [TrainedParams.addOnLayers, TrainedParams.aspp, TrainedParams.prototypeVectors]) ∧
    (phase = 1 → trainingStartMode phase = "joint" ∧
      (hasBase = true → trainedParams oc phase hasBase noPrototypes =
        [TrainedParams.features1x, TrainedParams.features10x, TrainedParams.features20x,
          TrainedParams.addOnLayers, TrainedParams.prototypeVectors]) ∧
      (hasBase = false → noPrototypes = true →
        trainedParams oc phase hasBase noPrototypes = [TrainedParams.featuresAll]) ∧
      (hasBase = false → noPrototypes = false →
        trainedParams oc phase hasBase noPrototypes =
          [TrainedParams.featuresAll, TrainedParams.addOnLayers,
            TrainedParams.prototypeVectors])) ∧
    (phase ≠ 0 → phase ≠ 1 → trainingStartMode phase = "last_only" ∧
      trainedParams oc phase hasBase noPrototypes = [TrainedParams.lastLayer]) := by
  refine ⟨?_, ?_, ?_⟩
  · rintro rfl
    exact ⟨rfl, rfl⟩
  · rintro rfl
    refine ⟨rfl, ?_, ?_, ?_⟩ <;> rintro rfl
    · exact rfl
    · rintro rfl; rfl
    · rintro rfl; rfl
  · intro h0 h1
    constructor
    · simp [trainingStartMode, h0, h1]
    · simp [trainedParams, configureOptimizers, h0, h1]

/-- Witness for C5: in training phase 2 only the last layer is optimized. -/
theorem C5_phase_param_groups_witness :
    trainedParams ocOnes 2 true false = [TrainedParams.lastLayer] :=
  ((C5_phase_param_groups ocOnes 2 true false).2.2 (by decide) (by decide)).2

/-- C10: gradient accumulation in `_step`.  Starting from
`iter_steps < iter_size` (with `iter_size ≥ 1`), a step increments
`iter_steps` and resets it to 0 exactly when it reaches `iter_size`; the
optimizer is stepped exactly on a train-split step that reaches `iter_size`;
when (and only when) `iter_size` is reached, the buffered per-batch means are
folded into the split metrics, `n_batches` grows by one and the buffer is
cleared, and otherwise the metrics are untouched and the buffer keeps
growing.  Hence `iter_steps` stays in `[0, iter_size)` between calls and the
optimizer steps once per `iter_size` consecutive training steps. -/
theorem C10_gradient_accumulation (iter_size : ℕ) (isTrain : Bool) (l ce kld : ℚ)
    (s : StepAccumState) (h1 : 1 ≤ iter_size) (h2 : s.iter_steps < iter_size) :
    (stepAccounting iter_size isTrain l ce kld s).1.iter_steps < iter_size ∧
    ((stepAccounting iter_size isTrain l ce kld s).1.iter_steps =
      if s.iter_steps + 1 = iter_size then 0 else s.iter_steps + 1) ∧
    ((stepAccounting iter_size isTrain l ce kld s).2 = true ↔
      (isTrain = true ∧ s.iter_steps + 1 = iter_size)) ∧
    (s.iter_steps + 1 = iter_size →
      (stepAccounting iter_size isTrain l ce kld s).1.iter_steps = 0 ∧
      (stepAccounting iter_size isTrain l ce kld s).1.metrics.n_batches =
        s.metrics.n_batches + 1 ∧
      (stepAccounting iter_size isTrain l ce kld s).1.batch_metrics = BatchMetrics.empty ∧
      (stepAccounting iter_size isTrain l ce kld s).1.metrics.loss =
        s.metrics.loss + listMean (s.batch_metrics.loss ++ [l]) ∧
      (stepAccounting iter_size isTrain l ce kld s).1.metrics.cross_entropy =
        s.metrics.cross_entropy + listMean (s.batch_metrics.cross_entropy ++ [ce]) ∧
      (stepAccounting iter_size isTrain l ce kld s).1.metrics.kld_loss =
        s.metrics.kld_loss + listMean (s.batch_metrics.kld_loss ++ [kld])) ∧
    (s.iter_steps + 1 ≠ iter_size →
      (stepAccounting iter_size isTrain l ce kld s).1.iter_steps = s.iter_steps + 1 ∧
      (stepAccounting iter_size isTrain l ce kld s).1.metrics = s.metrics ∧
      (stepAccounting iter_size isTrain l ce kld s).1.batch_metrics.loss =
        s.batch_metrics.loss ++ [l]) := by
  unfold stepAccounting
  by_cases hreach : s.iter_steps + 1 = iter_size
  · cases isTrain <;> simp [hreach] <;> omega
  · cases isTrain <;> simp [hreach] <;> omega

/-- Concrete state for the C10 witness: one buffered batch, one step short of
an accumulation boundary of 2. -/
def stepStateW : StepAccumState :=
  { iter_steps := 1, batch_metrics := ⟨[1], [0], [0]⟩, metrics := ⟨0, 0, 0, 0, 0, 0⟩ }

/-- Witness for C10 at `iter_size = 2` on a train step reaching the boundary. -/
theorem C10_gradient_accumulation_witness :
    (stepAccounting 2 true 3 0 0 stepStateW).1.iter_steps < 2 ∧
      (stepAccounting 2 true 3 0 0 stepStateW).2 = true :=
  ⟨(C10_gradient_accumulation 2 true 3 0 0 stepStateW (by decide) (by decide)).1,
    ((C10_gradient_accumulation 2 true 3 0 0 stepStateW (by decide) (by decide)).2.2.1).2
      ⟨rfl, rfl⟩⟩

/-- The first-minimum index returned by `argminIdx` attains a value no larger
than the value at any position of the list. -/
lemma argminIdx_le (xs : List ℚ) : ∀ j < xs.length, xs.getD (argminIdx xs) 0 ≤ xs.getD j 0 := by
  induction xs with
  | nil => intro j h; simp at h
  | cons x t ih =>
    cases t with
    | nil =>
      intro j h
      simp only [List.length_cons, List.length_nil] at h
      interval_cases j
      simp [argminIdx]
    | cons y rest =>
      intro j hj
      simp only [argminIdx]
      split
      · rename_i hlt
        rcases j with _ | k
        · simpa using le_of_lt hlt
        · simp only [List.getD_cons_succ]
          exact ih k (by simpa using hj)
      · rename_i hge
        push_neg at hge
        rcases j with _ | k
        · simp
        · simp only [List.getD_cons_zero, List.getD_cons_succ]
          exact le_trans hge (ih k (by simpa using hj))

/-- A pointwise property of the rebalancing counters is preserved by folding a
step function that preserves it. -/
lemma foldl_stats_inv {α : Type _} (P : RebalStats → Prop) (f : RebalStats → α → RebalStats)
    (hf : ∀ s a, P s → P (f s a)) :
    ∀ (l : List α) (s : RebalStats), P s → P (List.foldl f s l)
  | [], _, h => h
  | a :: l, s, h => foldl_stats_inv P f hf l (f s a) (hf s a h)

/-- One class-update of the rebalancing counters preserves the invariant that
every nearest-count is bounded by the corresponding total. -/
lemma updateStatsClass_inv (identity : List (List ℚ)) (numProtos : ℕ)
    (clsProtos : List (List ℕ)) (patches : List Patch) (stats : RebalStats) (c : ℕ)
    (h : ∀ p, stats.nearest p ≤ stats.total p) :
    ∀ p, (updateStatsClass identity numProtos clsProtos patches stats c).nearest p ≤
      (updateStatsClass identity numProtos clsProtos patches stats c).total p := by
  have hstep : ∀ (s : RebalStats) (proto : ℕ), (∀ p, s.nearest p ≤ s.total p) →
      ∀ p, (statsStep identity numProtos (predClassPatches patches c) s proto).nearest p ≤
        (statsStep identity numProtos (predClassPatches patches c) s proto).total p := by
    intro s proto hs p
    unfold statsStep
    simp only
    split
    · exact Nat.add_le_add (hs p) (List.length_filter_le _ _)
    · exact hs p
  unfold updateStatsClass
  by_cases hc : 0 < (predClassPatches patches c).length
  · simp only [if_pos hc]
    exact foldl_stats_inv (fun s => ∀ p, s.nearest p ≤ s.total p) _ hstep _ stats h
  · simp only [if_neg hc]
    exact h

/-- C7: in each train step with rebalancing enabled the bookkeeping keeps, for
every prototype, `patches_nearest_prototypes[p] ≤ proto_class_patches_total[p]`:
for each predicted class every prototype of that class has its total raised by
the number of patches predicted as that class and its nearest-count only by
the subset of those patches whose argmin-activation prototype (among that
class's prototypes) it is — indeed any patch counted for `p` has an activation
of `p` no larger than that of every same-class prototype. -/
theorem C7_stats_bound (identity : List (List ℚ)) (numProtos numClasses : ℕ)
    (clsProtos : List (List ℕ)) (patches : List Patch) (stats : RebalStats)
    (hinv : ∀ p, stats.nearest p ≤ stats.total p)
    (hcls : ∀ c, ∀ p ∈ clsProtos.getD c [], p < numProtos ∧ idAt identity p c = 1) :
    (∀ p,
      (updateRebalancingStats identity numProtos numClasses clsProtos patches stats).nearest p ≤
      (updateRebalancingStats identity numProtos numClasses clsProtos patches stats).total p) ∧
    (∀ c, ∀ p ∈ clsProtos.getD c [], ∀ pt ∈ patches, pt.predClass = c →
      nearestPatchPrototype identity numProtos pt = p →
      ∀ q ∈ clsProtos.getD c [], pt.activations.getD p 0 ≤ pt.activations.getD q 0) := by
  constructor
  · unfold updateRebalancingStats
    refine foldl_stats_inv (fun s => ∀ p, s.nearest p ≤ s.total p) _ ?_ _ stats hinv
    intro s c hs
    exact updateStatsClass_inv identity numProtos clsProtos patches s c hs
  · intro c p hp pt hpt hpc hnear q hq
    obtain ⟨hpN, hpId⟩ := hcls c p hp
    obtain ⟨hqN, hqId⟩ := hcls c q hq
    have hmin := argminIdx_le ((List.range numProtos).map (adjustedDistance identity pt)) q
      (by simpa using hqN)
    unfold nearestPatchPrototype at hnear
    rw [hnear] at hmin
    rw [getD_range_map _ _ _ _ hpN, getD_range_map _ _ _ _ hqN] at hmin
    unfold adjustedDistance at hmin
    rw [hpc] at hmin
    rw [hpId, hqId] at hmin
    simpa using hmin

/-- The `_best` and `_last` checkpoint names differ for every phase. -/
lemma best_ne_last (phase : ℤ) :
    String.append (stageKey phase) "_best.pth" ≠ String.append (stageKey phase) "_last.pth" := by
  unfold stageKey
  split
  · decide
  · split <;> decide

/-- Combined input/output relation of `onValidationEpochEnd` on a successful
call, from which the checkpoint-saving and rebalance-scheduling claims are
derived. -/
lemma onValidationEpochEnd_spec (cfg : RebalConfig) (rand : ℕ → List ℚ) (phase : ℤ)
    (gs : ℕ) (ms ms' : ModuleState) (saves : List String) (inv : Bool)
    (h : onValidationEpochEnd cfg rand phase gs ms = .ok (ms', saves, inv)) :
    saves = (if ms.sanity_check_val = false ∧ ms.best_acc < valAccuracy ms
      then [String.append (stageKey phase) "_last.pth",
            String.append (stageKey phase) "_best.pth"]
      else [String.append (stageKey phase) "_last.pth"]) ∧
    ms'.best_acc = (if ms.sanity_check_val = false ∧ ms.best_acc < valAccuracy ms
      then valAccuracy ms else ms.best_acc) ∧
    ms'.sanity_check_val = false ∧
    (inv = true ↔ (qualifiesRebalance cfg gs = true ∧
      ms.rebalance_epoch_counter % cfg.prototype_rebalance_every = 0)) ∧
    (inv = true → ∀ p, ms'.rebal.stats.total p = 0 ∧ ms'.rebal.stats.nearest p = 0) ∧
    ms'.rebalance_epoch_counter =
      (if qualifiesRebalance cfg gs = true
       then ms.rebalance_epoch_counter + 1 else ms.rebalance_epoch_counter) := by
  rcases hrb : rebalancePrototypes cfg rand ms.rebalance_epoch_counter ms.rebal with e | rb <;>
    unfold onValidationEpochEnd at h <;>
    rw [hrb] at h <;>
    by_cases hcond : ms.sanity_check_val = false ∧ ms.best_acc < valAccuracy ms <;>
    cases hq : qualifiesRebalance cfg gs <;>
    by_cases hmod : ms.rebalance_epoch_counter % cfg.prototype_rebalance_every = 0 <;>
    simp only [hcond, hq, hmod, ite_true, ite_false, not_true, not_false_iff,
      Bool.false_eq_true, false_and, true_and, and_true, and_false, if_true, if_false] at h <;>
    first
      | exact Except.noConfusion h
      | (simp only [Except.ok.injEq, Prod.mk.injEq] at h
         obtain ⟨hms, hsaves, hinv⟩ := h
         subst hms; subst hsaves; subst hinv
         refine ⟨?_, ?_, ?_, ?_, ?_, ?_⟩ <;> simp [hcond, hq, hmod])

/-- The guard `qualifiesRebalance` holds exactly when `prototype_rebalancing`
is set and the global step has reached it. -/
lemma qualifiesRebalance_iff (cfg : RebalConfig) (gs : ℕ) :
    qualifiesRebalance cfg gs = true ↔
      ∃ r0, cfg.prototype_rebalancing = some r0 ∧ r0 ≤ gs := by
  unfold qualifiesRebalance
  cases cfg.prototype_rebalancing <;> simp

/-- C6: on every successful validation-epoch end the model is saved to
`{stage_key}_last.pth` (`stage_key` being `warmup`, `nopush` or `push` for
phases 0, 1 and others); it is saved to `{stage_key}_best.pth` exactly when
the sanity-check validation is over and the validation accuracy strictly
exceeds `best_acc`; `best_acc` is updated to the new accuracy exactly in that
case, and in particular never decreases. -/
theorem C6_checkpoint_saving (cfg : RebalConfig) (rand : ℕ → List ℚ) (phase : ℤ)
    (gs : ℕ) (ms ms' : ModuleState) (saves : List String) (inv : Bool)
    (h : onValidationEpochEnd cfg rand phase gs ms = .ok (ms', saves, inv)) :
    String.append (stageKey phase) "_last.pth" ∈ saves ∧
    (String.append (stageKey phase) "_best.pth" ∈ saves ↔
      (ms.sanity_check_val = false ∧ ms.best_acc < valAccuracy ms)) ∧
    ms'.best_acc = (if ms.sanity_check_val = false ∧ ms.best_acc < valAccuracy ms
      then valAccuracy ms else ms.best_acc) ∧
    ms.best_acc ≤ ms'.best_acc ∧
    stageKey phase = (if phase = 0 then "warmup"
      else if phase = 1 then "nopush" else "push") := by
  obtain ⟨hsaves, hbest, hsan, hinv, hstats, hctr⟩ :=
    onValidationEpochEnd_spec cfg rand phase gs ms ms' saves inv h
  by_cases hcond : ms.sanity_check_val = false ∧ ms.best_acc < valAccuracy ms
  · rw [if_pos hcond] at hsaves
    subst hsaves
    refine ⟨by simp, by simp [hcond], hbest, ?_, rfl⟩
    rw [hbest, if_pos hcond]
    exact le_of_lt hcond.2
  · rw [if_neg hcond] at hsaves
    subst hsaves
    refine ⟨by simp, ?_, hbest, ?_, rfl⟩
    · rw [List.mem_singleton]
      simp [hcond, best_ne_last phase]
    · rw [hbest, if_neg hcond]

/-- C3: on a successful validation-epoch end, `rebalance_prototypes` is
invoked exactly when `prototype_rebalancing` is configured, the global step
has reached it, and the rebalance epoch counter is divisible by
`prototype_rebalance_every`; immediately after such an invocation both
rebalancing counters are reset to empty, and the epoch counter is incremented
on every qualifying validation-epoch end whether or not a rebalance ran. -/
theorem C3_rebalance_schedule (cfg : RebalConfig) (rand : ℕ → List ℚ) (phase : ℤ)
    (gs : ℕ) (ms ms' : ModuleState) (saves : List String) (inv : Bool)
    (_hev : 0 < cfg.prototype_rebalance_every)
    (h : onValidationEpochEnd cfg rand phase gs ms = .ok (ms', saves, inv)) :
    (qualifiesRebalance cfg gs = true ↔
      ∃ r0, cfg.prototype_rebalancing = some r0 ∧ r0 ≤ gs) ∧
    (inv = true ↔ (qualifiesRebalance cfg gs = true ∧
      ms.rebalance_epoch_counter % cfg.prototype_rebalance_every = 0)) ∧
    (inv = true → ∀ p, ms'.rebal.stats.total p = 0 ∧ ms'.rebal.stats.nearest p = 0) ∧
    ms'.rebalance_epoch_counter =
      (if qualifiesRebalance cfg gs = true
       then ms.rebalance_epoch_counter + 1 else ms.rebalance_epoch_counter) := by
  obtain ⟨hsaves, hbest, hsan, hinv, hstats, hctr⟩ :=
    onValidationEpochEnd_spec cfg rand phase gs ms ms' saves inv h
  exact ⟨qualifiesRebalance_iff cfg gs, hinv, hstats, hctr⟩

/-- Tiny configuration with rebalancing disabled, used by witnesses. -/
def cfgNoRebal : RebalConfig :=
  { num_prototypes := 0, num_classes := 1, proto_dim := 1,
    prototype_rebalancing := none, prototype_rebalancing_threshold := 1 / 2,
    prototype_initialization_method := "random", prototype_rebalance_every := 1,
    randomize_all_below_threshold := false }

/-- Variant of `cfgNoRebal` with rebalancing enabled from step 0. -/
def cfgRebal0 : RebalConfig := { cfgNoRebal with prototype_rebalancing := some 0 }

/-- Rebalance state with no prototypes, used by witnesses. -/
def stEmpty : RebalState :=
  { identity := [], vectors := [], clsProtos := [[]],
    proto2cls := fun _ => none, stats := ⟨fun _ => 0, fun _ => 0⟩ }

/-- Module state used by witnesses: sanity check over, accuracy 3/4. -/
def msW : ModuleState :=
  { rebal := stEmpty, best_acc := 0, sanity_check_val := false,
    rebalance_epoch_counter := 0, val_n_correct := 3, val_n_patches := 4 }

/-- Random oracle used by witnesses. -/
def randW : ℕ → List ℚ := fun _ => [0]

/-- Module state after the witness validation epoch without rebalancing. -/
def msW6 : ModuleState := { msW with best_acc := 3 / 4 }

/-- Witness for C6: a concrete validation-epoch end whose save list contains
the `_last` checkpoint. -/
theorem C6_checkpoint_saving_witness :
    String.append (stageKey 0) "_last.pth" ∈
      [String.append (stageKey 0) "_last.pth", String.append (stageKey 0) "_best.pth"] :=
  (C6_checkpoint_saving cfgNoRebal randW 0 7 msW msW6
    [String.append (stageKey 0) "_last.pth", String.append (stageKey 0) "_best.pth"]
    false (by
      simp only [onValidationEpochEnd, qualifiesRebalance, cfgNoRebal, msW, msW6, valAccuracy, stEmpty]
      norm_num)).1

/-- Module state after the witness validation epoch with an invoked rebalance
on an empty prototype set. -/
def msW3 : ModuleState :=
  { rebal := { identity := [], vectors := [], clsProtos := buildClsProtos [] 1,
               proto2cls := buildProto2cls [] 1, stats := ⟨fun _ => 0, fun _ => 0⟩ },
    best_acc := 3 / 4, sanity_check_val := false, rebalance_epoch_counter := 1,
    val_n_correct := 3, val_n_patches := 4 }

/-- Witness for C3: after a concrete invoked rebalance both counters are
reset to zero, here checked for prototype 0. -/
theorem C3_rebalance_schedule_witness :
    msW3.rebal.stats.total 0 = 0 ∧ msW3.rebal.stats.nearest 0 = 0 :=
  (C3_rebalance_schedule cfgRebal0 randW 0 5 msW msW3
    [String.append (stageKey 0) "_last.pth", String.append (stageKey 0) "_best.pth"]
    true (by decide) (by
      norm_num [onValidationEpochEnd, qualifiesRebalance, cfgRebal0, cfgNoRebal, msW, msW3,
        valAccuracy, stEmpty, rebalancePrototypes, rebalanceRun, rebalanceLoop, clsProtoSaturation,
        protoNumsList, argsortAsc, argsortDesc, buildClsProtos, buildProto2cls, idAt,
        List.insertionSort])).2.2.1 rfl 0

/-- Identity matrix for the C7 witness. -/
def idW : List (List ℚ) := [[1, 0], [0, 1]]

/-- Class-prototype lists for the C7 witness. -/
def clsW : List (List ℕ) := [[0], [1]]

/-- Patch list for the C7 witness. -/
def patchesW : List Patch := [⟨0, [1, 2]⟩]

/-- Zero counters. -/
def statsZero : RebalStats := ⟨fun _ => 0, fun _ => 0⟩

/-- Witness for C7: the counter invariant after one concrete update. -/
theorem C7_stats_bound_witness :
    (updateRebalancingStats idW 2 2 clsW patchesW statsZero).nearest 0 ≤
      (updateRebalancingStats idW 2 2 clsW patchesW statsZero).total 0 :=
  (C7_stats_bound idW 2 2 clsW patchesW statsZero (fun _ => Nat.le_refl 0)
    (by
      intro c p hp
      rcases c with _ | _ | c
      · simp only [clsW, List.getD_cons_zero, List.mem_singleton] at hp
        subst hp
        exact ⟨by norm_num, by norm_num [idAt, idW]⟩
      · simp only [clsW, List.getD_cons_succ, List.getD_cons_zero, List.mem_singleton] at hp
        subst hp
        exact ⟨by norm_num, by norm_num [idAt, idW]⟩
      · simp only [clsW, List.getD_cons_succ, List.getD_nil] at hp
        exact absurd hp (List.not_mem_nil p))).1 0

/-! ## Lemmas about the move loop of `rebalance_prototypes` -/

/-- A property is preserved by a left fold whose step preserves it. -/
lemma foldl_pres {α β : Type _} (P : β → Prop) (f : β → α → β)
    (hf : ∀ b a, P b → P (f b a)) : ∀ (l : List α) (b : β), P b → P (List.foldl f b l)
  | [], _, h => h
  | a :: l, b, h => foldl_pres P f hf l (f b a) (hf b a h)

lemma getD_replicate {α : Type _} (n i : ℕ) (x d : α) (h : i < n) :
    (List.replicate n x).getD i d = x := by
  rw [List.getD_eq_getElem?_getD, List.getElem?_eq_getElem (by simpa using h)]
  simp

lemma getD_mem_of_lt {α : Type _} (l : List α) (i : ℕ) (d : α) (h : i < l.length) :
    l.getD i d ∈ l := by
  rw [List.getD_eq_getElem?_getD, List.getElem?_eq_getElem h]
  exact List.getElem_mem h

/-- `cls_proto_saturation` has one entry per class. -/
lemma clsProtoSaturation_length (cfg : RebalConfig) (st : RebalState) :
    (clsProtoSaturation cfg st).length = cfg.num_classes := by
  unfold clsProtoSaturation
  refine foldl_pres (fun l : List ℚ => l.length = cfg.num_classes) _ ?_ _ _ (by simp)
  intro l i hl
  by_cases h1 : 0 < st.stats.total i
  · simp only [if_pos h1]
    by_cases h2 : protoFrac st i < l.getD ((st.proto2cls i).getD cfg.num_classes) 2
    · simp only [if_pos h2, List.length_set]
      exact hl
    · simp only [if_neg h2]
      exact hl
  · simp only [if_neg h1]
    exact hl

lemma argsortAsc_perm (xs : List ℚ) : (argsortAsc xs).Perm (List.range xs.length) :=
  List.perm_insertionSort _ _

lemma mem_argsortAsc {xs : List ℚ} {i : ℕ} (h : i ∈ argsortAsc xs) : i < xs.length := by
  have := (argsortAsc_perm xs).mem_iff.mp h
  simpa using this

lemma argsortAsc_nodup (xs : List ℚ) : (argsortAsc xs).Nodup :=
  ((argsortAsc_perm xs).nodup_iff).mpr (List.nodup_range _)

lemma argsortDesc_perm (xs : List ℚ) : (argsortDesc xs).Perm (List.range xs.length) :=
  List.perm_insertionSort _ _

lemma mem_argsortDesc {xs : List ℚ} {i : ℕ} (h : i ∈ argsortDesc xs) : i < xs.length := by
  have := (argsortDesc_perm xs).mem_iff.mp h
  simpa using this

lemma argsortDesc_length (xs : List ℚ) : (argsortDesc xs).length = xs.length := by
  simpa using (argsortDesc_perm xs).length_eq

lemma protoNumsList_nodup (cfg : RebalConfig) (st : RebalState) :
    (protoNumsList cfg st).Nodup :=
  List.Nodup.filter _ (List.nodup_range _)

lemma mem_protoNumsList {cfg : RebalConfig} {st : RebalState} {i : ℕ}
    (h : i ∈ protoNumsList cfg st) : i < cfg.num_prototypes ∧ 0 < st.stats.total i := by
  unfold protoNumsList at h
  rw [List.mem_filter] at h
  simpa using h

/-- Mapping distinct in-range indices through `getD` on a duplicate-free list
yields a duplicate-free list. -/
lemma map_getD_nodup (l : List ℕ) (hl : l.Nodup) (inds : List ℕ)
    (hinds : inds.Nodup) (hb : ∀ i ∈ inds, i < l.length) :
    (inds.map (fun i => l.getD i 0)).Nodup := by
  refine List.Nodup.map_on ?_ hinds
  intro i hi j hj hEq
  have hi' := hb i hi
  have hj' := hb j hj
  rw [List.getD_eq_getElem?_getD, List.getElem?_eq_getElem hi'] at hEq
  rw [List.getD_eq_getElem?_getD, List.getElem?_eq_getElem hj'] at hEq
  simp only [Option.getD_some] at hEq
  exact (List.Nodup.getElem_inj_iff hl).mp hEq

lemma advanceClsIAux_ge (sat : List ℚ) (top : List ℕ) :
    ∀ (fuel clsI : ℕ), clsI ≤ advanceClsIAux sat top fuel clsI
  | 0, _ => le_refl _
  | fuel + 1, clsI => by
    unfold advanceClsIAux
    split
    · exact le_trans (Nat.le_succ _) (advanceClsIAux_ge sat top fuel (clsI + 1))
    · exact le_refl _

/-- The class cursor never moves backwards. -/
lemma advanceClsI_ge (nc : ℕ) (sat : List ℚ) (top : List ℕ) (clsI : ℕ) :
    clsI ≤ advanceClsI nc sat top clsI :=
  advanceClsIAux_ge sat top (nc - clsI) clsI

lemma advanceClsIAux_sat_le (sat : List ℚ) (top : List ℕ) :
    ∀ (fuel clsI : ℕ), advanceClsIAux sat top fuel clsI < clsI + fuel →
      sat.getD (top.getD (advanceClsIAux sat top fuel clsI) 0) 0 ≤ 11 / 10
  | 0, clsI => by
    unfold advanceClsIAux
    omega
  | fuel + 1, clsI => by
    unfold advanceClsIAux
    split
    · intro h
      exact advanceClsIAux_sat_le sat top fuel (clsI + 1) (by omega)
    · exact fun _ => le_of_not_lt (by assumption)

/-- When the advanced cursor still points at a class, that class has
saturation at most 1.1. -/
lemma advanceClsI_sat_le (nc : ℕ) (sat : List ℚ) (top : List ℕ) (clsI : ℕ)
    (h : advanceClsI nc sat top clsI < nc) :
    sat.getD (top.getD (advanceClsI nc sat top clsI) 0) 0 ≤ 11 / 10 := by
  rcases le_or_lt clsI nc with hle | hlt
  · exact advanceClsIAux_sat_le sat top (nc - clsI) clsI (by unfold advanceClsI at h; omega)
  · exfalso
    unfold advanceClsI at h
    rw [Nat.sub_eq_zero_of_le (le_of_lt hlt)] at h
    simp only [advanceClsIAux] at h
    omega

/-- Facts forced by a successful target-class selection. -/
lemma selectTarget_some {cfg : RebalConfig} {st : RebalState} {sat : List ℚ}
    {top : List ℕ} {clsI protoNum t : ℕ}
    (h : selectTarget cfg st sat top clsI protoNum = some t) :
    clsI < cfg.num_classes ∧ t = top.getD clsI 0 ∧
    st.proto2cls protoNum ≠ some t ∧
    cfg.prototype_rebalancing_threshold ≤ sat.getD t 0 := by
  unfold selectTarget at h
  by_cases h1 : clsI < cfg.num_classes
  · rw [if_pos h1] at h
    by_cases h2 : st.proto2cls protoNum = some (top.getD clsI 0) ∨
        sat.getD (top.getD clsI 0) 0 < cfg.prototype_rebalancing_threshold
    · rw [if_pos h2] at h
      exact absurd h (by simp)
    · rw [if_neg h2] at h
      push_neg at h2
      obtain ⟨hne, hge⟩ := h2
      have ht : top.getD clsI 0 = t := by simpa using h
      subst ht
      exact ⟨h1, rfl, hne, hge⟩
  · rw [if_neg h1] at h
    exact absurd h (by simp)

/-- Main induction over the move loop: lengths are preserved; every performed
move concerns a prototype drawn from the scanned index list with fraction
strictly below the threshold, targets a different class of saturation between
the threshold and 1.1, advances the cursor, and rewrites exactly its own
identity row and prototype vector; untouched rows and vectors are unchanged;
`any_moved` holds exactly when some move happened. -/
lemma rebalanceLoop_spec (cfg : RebalConfig) (rand : ℕ → List ℚ) (st : RebalState)
    (sat : List ℚ) (top : List ℕ) (pn : List ℕ) (fr : List ℚ)
    (Htop : ∀ x ∈ top, x < cfg.num_classes)
    (Htoplen : top.length = cfg.num_classes)
    (Hpn : ∀ x ∈ pn, x < cfg.num_prototypes) :
    ∀ inds : List ℕ, (inds.map (fun i => pn.getD i 0)).Nodup →
      (∀ i ∈ inds, i < pn.length) →
      ∀ (clsI : ℕ) (idn vecs : List (List ℚ)),
        idn.length = cfg.num_prototypes → vecs.length = cfg.num_prototypes →
        ∀ r : RebalLoopResult,
          rebalanceLoop cfg rand st sat top pn fr inds clsI idn vecs = .ok r →
          r.identity.length = idn.length ∧
          r.vectors.length = vecs.length ∧
          (∀ pt ∈ r.moves,
            (∃ i ∈ inds, pt.1 = pn.getD i 0 ∧
              fr.getD i 0 < cfg.prototype_rebalancing_threshold) ∧
            pt.2 < cfg.num_classes ∧
            st.proto2cls pt.1 ≠ some pt.2 ∧
            cfg.prototype_rebalancing_threshold ≤ sat.getD pt.2 0 ∧
            sat.getD pt.2 0 ≤ 11 / 10) ∧
          r.moves.length ≤ cfg.num_classes - clsI ∧
          (∀ i ∈ r.randomized, i ∈ inds) ∧
          (r.anyMoved = true ↔ r.moves ≠ []) ∧
          (∀ q, q ∉ r.moves.map Prod.fst → r.identity.getD q [] = idn.getD q []) ∧
          (∀ q, q ∉ r.moves.map Prod.fst →
            q ∉ r.randomized.map (fun i => pn.getD i 0) →
            r.vectors.getD q [] = vecs.getD q []) ∧
          (∀ pt ∈ r.moves,
            r.identity.getD pt.1 [] = (List.replicate cfg.num_classes 0).set pt.2 1 ∧
            (cfg.prototype_initialization_method = "random" →
              r.vectors.getD pt.1 [] = rand pt.1)) := by
  intro inds
  induction inds with
  | nil =>
    intro _ _ clsI idn vecs _ _ r h
    simp only [rebalanceLoop, Except.ok.injEq] at h
    subst h
    exact ⟨rfl, rfl, by simp, by simp, by simp, by simp,
      fun q _ => rfl, fun q _ _ => rfl, by simp⟩
  | cons i rest ih =>
    intro hnodup hbound clsI idn vecs hidn hvecs r h
    have hpmem : pn.getD i 0 < cfg.num_prototypes :=
      Hpn _ (getD_mem_of_lt pn i 0 (hbound i (List.mem_cons_self i rest)))
    have hnR : (rest.map (fun j => pn.getD j 0)).Nodup := (List.nodup_cons.mp hnodup).2
    have hheadR : pn.getD i 0 ∉ rest.map (fun j => pn.getD j 0) :=
      (List.nodup_cons.mp hnodup).1
    have hbR : ∀ j ∈ rest, j < pn.length :=
      fun j hj => hbound j (List.mem_cons_of_mem _ hj)
    simp only [rebalanceLoop] at h
    by_cases hbr : cfg.prototype_rebalancing_threshold ≤ fr.getD i 0
    · rw [if_pos hbr, Except.ok.injEq] at h
      subst h
      exact ⟨rfl, rfl, by simp, by simp, by simp, by simp,
        fun q _ => rfl, fun q _ _ => rfl, by simp⟩
    · rw [if_neg hbr] at h
      have hiA : clsI ≤ advanceClsI cfg.num_classes sat top clsI :=
        advanceClsI_ge _ _ _ _
      cases hsel : selectTarget cfg st sat top
          (advanceClsI cfg.num_classes sat top clsI) (pn.getD i 0) with
      | none =>
        rw [hsel] at h
        by_cases hrnd : cfg.randomize_all_below_threshold
        · simp only [if_pos hrnd] at h
          cases hrec : rebalanceLoop cfg rand st sat top pn fr rest
              (advanceClsI cfg.num_classes sat top clsI) idn
              (vecs.set (pn.getD i 0) (rand (pn.getD i 0))) with
          | error e =>
            simp only [hrec] at h
            exact Except.noConfusion h
          | ok r' =>
            simp only [hrec, Except.ok.injEq] at h
            subst h
            obtain ⟨ih1, ih2, ih3, ih4, ih5, ih6, ih7, ih8, ih9⟩ :=
              ih hnR hbR (advanceClsI cfg.num_classes sat top clsI) idn
                (vecs.set (pn.getD i 0) (rand (pn.getD i 0))) hidn
                (by simpa using hvecs) r' hrec
            refine ⟨ih1, by simpa using ih2, ?_, ?_, ?_, ih6, ih7, ?_, ih9⟩
            · intro pt hpt
              obtain ⟨⟨i', hi', hpe, hfr⟩, hrest⟩ := ih3 pt hpt
              exact ⟨⟨i', List.mem_cons_of_mem _ hi', hpe, hfr⟩, hrest⟩
            · exact le_trans ih4 (by omega)
            · intro j hj
              rcases List.mem_cons.mp hj with rfl | hj'
              · exact List.mem_cons_self _ _
              · exact List.mem_cons_of_mem _ (ih5 j hj')
            · intro q hq1 hq2
              simp only [List.map_cons, List.mem_cons, not_or] at hq2
              rw [ih8 q hq1 hq2.2]
              exact getD_set_ne vecs _ _ (fun hEq => hq2.1 hEq.symm)
        · simp only [if_neg hrnd, Except.ok.injEq] at h
          subst h
          exact ⟨rfl, rfl, by simp, by simp, by simp, by simp,
            fun q _ => rfl, fun q _ _ => rfl, by simp⟩
      | some t =>
        simp only [hsel] at h
        obtain ⟨hA, htEq, hne, hthr⟩ := selectTarget_some hsel
        have hsatle : sat.getD t 0 ≤ 11 / 10 := by
          rw [htEq]
          exact advanceClsI_sat_le _ _ _ _ hA
        have htlt : t < cfg.num_classes := by
          rw [htEq]
          exact Htop _ (getD_mem_of_lt top _ 0 (by rw [Htoplen]; exact hA))
        have hplen : pn.getD i 0 < idn.length := by rw [hidn]; exact hpmem
        have hplenv : pn.getD i 0 < vecs.length := by rw [hvecs]; exact hpmem
        by_cases hm1 : cfg.prototype_initialization_method = "random"
        · rw [if_pos hm1] at h
          cases hrec : rebalanceLoop cfg rand st sat top pn fr rest
              (advanceClsI cfg.num_classes sat top clsI + 1)
              (idn.set (pn.getD i 0) ((List.replicate cfg.num_classes 0).set t 1))
              (vecs.set (pn.getD i 0) (rand (pn.getD i 0))) with
          | error e =>
            simp only [hrec] at h
            exact Except.noConfusion h
          | ok r' =>
            simp only [hrec, Except.ok.injEq] at h
            subst h
            obtain ⟨ih1, ih2, ih3, ih4, ih5, ih6, ih7, ih8, ih9⟩ :=
              ih hnR hbR (advanceClsI cfg.num_classes sat top clsI + 1)
                (idn.set (pn.getD i 0) ((List.replicate cfg.num_classes 0).set t 1))
                (vecs.set (pn.getD i 0) (rand (pn.getD i 0)))
                (by simpa using hidn) (by simpa using hvecs) r' hrec
            have hmovesR : ∀ pt ∈ r'.moves, pt.1 ∈ rest.map (fun j => pn.getD j 0) := by
              intro pt hpt
              obtain ⟨⟨i', hi', hpe, _⟩, _⟩ := ih3 pt hpt
              exact List.mem_map.mpr ⟨i', hi', hpe.symm⟩
            have hpnotmoves : pn.getD i 0 ∉ r'.moves.map Prod.fst := by
              intro hmem
              obtain ⟨pt, hpt, hpe⟩ := List.mem_map.mp hmem
              exact hheadR (hpe ▸ hmovesR pt hpt)
            have hpnotrand : pn.getD i 0 ∉ r'.randomized.map (fun j => pn.getD j 0) := by
              intro hmem
              obtain ⟨j, hj, hje⟩ := List.mem_map.mp hmem
              exact hheadR (List.mem_map.mpr ⟨j, ih5 j hj, hje⟩)
            refine ⟨by simpa using ih1, by simpa using ih2, ?_, ?_, ?_, by simp, ?_, ?_, ?_⟩
            · intro pt hpt
              rcases List.mem_cons.mp hpt with rfl | hpt'
              · exact ⟨⟨i, List.mem_cons_self i rest, rfl, lt_of_not_le hbr⟩,
                  htlt, hne, hthr, hsatle⟩
              · obtain ⟨⟨i', hi', hpe, hfr⟩, hrest⟩ := ih3 pt hpt'
                exact ⟨⟨i', List.mem_cons_of_mem _ hi', hpe, hfr⟩, hrest⟩
            · simp only [List.length_cons]
              omega
            · intro j hj
              exact List.mem_cons_of_mem _ (ih5 j hj)
            · intro q hq
              simp only [List.map_cons, List.mem_cons, not_or] at hq
              rw [ih7 q hq.2]
              exact getD_set_ne idn _ _ (fun hEq => hq.1 hEq.symm)
            · intro q hq hq2
              simp only [List.map_cons, List.mem_cons, not_or] at hq
              rw [ih8 q hq.2 hq2]
              exact getD_set_ne vecs _ _ (fun hEq => hq.1 hEq.symm)
            · intro pt hpt
              rcases List.mem_cons.mp hpt with rfl | hpt'
              · refine ⟨?_, ?_⟩
                · rw [ih7 _ hpnotmoves]
                  exact getD_set_self idn _ _ _ hplen
                · intro _
                  rw [ih8 _ hpnotmoves hpnotrand]
                  exact getD_set_self vecs _ _ _ hplenv
              · exact ih9 pt hpt'
        · by_cases hm2 : cfg.prototype_initialization_method = "mean"
          · rw [if_neg hm1, if_pos hm2] at h
            cases hrec : rebalanceLoop cfg rand st sat top pn fr rest
                (advanceClsI cfg.num_classes sat top clsI + 1)
                (idn.set (pn.getD i 0) ((List.replicate cfg.num_classes 0).set t 1))
                (vecs.set (pn.getD i 0)
                  (classMeanVec cfg.proto_dim vecs (st.clsProtos.getD t []))) with
            | error e =>
              simp only [hrec] at h
              exact Except.noConfusion h
            | ok r' =>
              simp only [hrec, Except.ok.injEq] at h
              subst h
              obtain ⟨ih1, ih2, ih3, ih4, ih5, ih6, ih7, ih8, ih9⟩ :=
                ih hnR hbR (advanceClsI cfg.num_classes sat top clsI + 1)
                  (idn.set (pn.getD i 0) ((List.replicate cfg.num_classes 0).set t 1))
                  (vecs.set (pn.getD i 0)
                    (classMeanVec cfg.proto_dim vecs (st.clsProtos.getD t [])))
                  (by simpa using hidn) (by simpa using hvecs) r' hrec
              have hmovesR : ∀ pt ∈ r'.moves, pt.1 ∈ rest.map (fun j => pn.getD j 0) := by
                intro pt hpt
                obtain ⟨⟨i', hi', hpe, _⟩, _⟩ := ih3 pt hpt
                exact List.mem_map.mpr ⟨i', hi', hpe.symm⟩
              have hpnotmoves : pn.getD i 0 ∉ r'.moves.map Prod.fst := by
                intro hmem
                obtain ⟨pt, hpt, hpe⟩ := List.mem_map.mp hmem
                exact hheadR (hpe ▸ hmovesR pt hpt)
              have hpnotrand : pn.getD i 0 ∉ r'.randomized.map (fun j => pn.getD j 0) := by
                intro hmem
                obtain ⟨j, hj, hje⟩ := List.mem_map.mp hmem
                exact hheadR (List.mem_map.mpr ⟨j, ih5 j hj, hje⟩)
              refine ⟨by simpa using ih1, by simpa using ih2, ?_, ?_, ?_, by simp, ?_, ?_, ?_⟩
              · intro pt hpt
                rcases List.mem_cons.mp hpt with rfl | hpt'
                · exact ⟨⟨i, List.mem_cons_self i rest, rfl, lt_of_not_le hbr⟩,
                    htlt, hne, hthr, hsatle⟩
                · obtain ⟨⟨i', hi', hpe, hfr⟩, hrest⟩ := ih3 pt hpt'
                  exact ⟨⟨i', List.mem_cons_of_mem _ hi', hpe, hfr⟩, hrest⟩
              · simp only [List.length_cons]
                omega
              · intro j hj
                exact List.mem_cons_of_mem _ (ih5 j hj)
              · intro q hq
                simp only [List.map_cons, List.mem_cons, not_or] at hq
                rw [ih7 q hq.2]
                exact getD_set_ne idn _ _ (fun hEq => hq.1 hEq.symm)
              · intro q hq hq2
                simp only [List.map_cons, List.mem_cons, not_or] at hq
                rw [ih8 q hq.2 hq2]
                exact getD_set_ne vecs _ _ (fun hEq => hq.1 hEq.symm)
              · intro pt hpt
                rcases List.mem_cons.mp hpt with rfl | hpt'
                · refine ⟨?_, ?_⟩
                  · rw [ih7 _ hpnotmoves]
                    exact getD_set_self idn _ _ _ hplen
                  · intro hmr
                    exact absurd (hm2.symm.trans hmr) (by decide)
                · exact ih9 pt hpt'
          · rw [if_neg hm1, if_neg hm2] at h
            simp at h

/-! ## One-hot rows and the rebuilt helper collections -/

/-- Number of entries equal to 1 among the first `nc` positions of a row of
the prototype-class identity matrix. -/
def oneHotCount (row : List ℚ) (nc : ℕ) : ℕ :=
  ((List.range nc).filter (fun c => decide (row.getD c 0 = 1))).length

lemma length_filter_range_self (t : ℕ) : ∀ n, t < n →
    ((List.range n).filter (fun c => decide (c = t))).length = 1 := by
  intro n
  induction n with
  | zero => intro h; omega
  | succ n ihn =>
    intro h
    rw [List.range_succ, List.filter_append, List.length_append]
    rcases Nat.lt_or_ge t n with h' | h'
    · rw [ihn h']
      have hne : ¬(n = t) := by omega
      simp [hne]
    · have ht : n = t := by omega
      subst ht
      have h0 : (List.range n).filter (fun c => decide (c = n)) = [] := by
        rw [List.filter_eq_nil_iff]
        intro a ha
        simp only [decide_eq_true_eq]
        exact Nat.ne_of_lt (List.mem_range.mp ha)
      simp [h0]

/-- A freshly rewritten identity row (all zeros, then a single 1 at the target
class) has exactly one entry equal to 1. -/
lemma oneHotCount_replicate_set (nc t : ℕ) (h : t < nc) :
    oneHotCount ((List.replicate nc (0 : ℚ)).set t 1) nc = 1 := by
  unfold oneHotCount
  have hcongr : (List.range nc).filter
        (fun c => decide (((List.replicate nc (0 : ℚ)).set t 1).getD c 0 = 1)) =
      (List.range nc).filter (fun c => decide (c = t)) := by
    apply List.filter_congr
    intro c hc
    have hc' := List.mem_range.mp hc
    by_cases hct : c = t
    · subst hct
      have hval : ((List.replicate nc (0 : ℚ)).set c 1).getD c 0 = 1 :=
        getD_set_self _ _ _ _ (by simpa using hc')
      rw [hval]
      simp
    · have hval : ((List.replicate nc (0 : ℚ)).set t 1).getD c 0 = 0 := by
        rw [getD_set_ne _ _ _ (fun hEq => hct hEq.symm)]
        exact getD_replicate _ _ _ _ hc'
      rw [hval]
      norm_num [hct]
  rw [hcongr]
  exact length_filter_range_self t nc h

/-- Under the one-hot invariant, the rebuilt `proto2cls` dictionary maps a
prototype to a class exactly when its identity entry for that class is 1. -/
lemma buildProto2cls_eq_some_iff (idn : List (List ℚ)) (nc : ℕ)
    (hone : ∀ p < idn.length, oneHotCount (idn.getD p []) nc = 1) :
    ∀ p c, c < nc → (buildProto2cls idn nc p = some c ↔ idAt idn p c = 1) := by
  intro p c hc
  by_cases hp : p < idn.length
  · have h1 := hone p hp
    unfold oneHotCount at h1
    obtain ⟨c0, hF⟩ := List.length_eq_one.mp h1
    have hc0 : c0 ∈ (List.range nc).filter
        (fun c => decide ((idn.getD p []).getD c 0 = 1)) := by
      rw [hF]
      exact List.mem_singleton_self c0
    obtain ⟨hc0r, hc0e⟩ := List.mem_filter.mp hc0
    have hc0e' : (idn.getD p []).getD c0 0 = 1 := by simpa using hc0e
    unfold buildProto2cls
    simp only [idAt]
    rw [hF, List.getLast?_singleton]
    constructor
    · intro hsc
      have : c0 = c := by simpa using hsc
      subst this
      exact hc0e'
    · intro hentry
      have hcF : c ∈ (List.range nc).filter
          (fun c => decide ((idn.getD p []).getD c 0 = 1)) :=
        List.mem_filter.mpr ⟨List.mem_range.mpr hc, by simpa using hentry⟩
      rw [hF, List.mem_singleton] at hcF
      subst hcF
      rfl
  · push_neg at hp
    have hrow : idn.getD p [] = [] := List.getD_eq_default _ _ hp
    have hat : ∀ a, idAt idn p a = 0 := by
      intro a
      unfold idAt
      rw [hrow]
      rfl
    unfold buildProto2cls
    have hF : (List.range nc).filter (fun c => decide (idAt idn p c = 1)) = [] := by
      rw [List.filter_eq_nil_iff]
      intro a _
      rw [hat a]
      norm_num
    rw [hF]
    rw [hat c]
    norm_num
    simp

/-- Membership in the rebuilt `cls_prototypes` lists. -/
lemma buildClsProtos_mem (idn : List (List ℚ)) (nc : ℕ) :
    ∀ p c, c < nc →
      (p ∈ (buildClsProtos idn nc).getD c [] ↔ p < idn.length ∧ idAt idn p c = 1) := by
  intro p c hc
  unfold buildClsProtos
  rw [getD_range_map _ _ _ _ hc]
  rw [List.mem_filter]
  simp [List.mem_range]

/-- `rebalanceLoop_spec` instantiated at the arguments computed by
`rebalance_prototypes` (module.py lines 433-470). -/
lemma rebalanceRun_spec (cfg : RebalConfig) (rand : ℕ → List ℚ) (st : RebalState)
    (hidn : st.identity.length = cfg.num_prototypes)
    (hvecs : st.vectors.length = cfg.num_prototypes)
    (r : RebalLoopResult) (h : rebalanceRun cfg rand st = .ok r) :
    r.identity.length = st.identity.length ∧
    r.vectors.length = st.vectors.length ∧
    (∀ pt ∈ r.moves,
      protoFrac st pt.1 < cfg.prototype_rebalancing_threshold ∧
      pt.2 < cfg.num_classes ∧
      st.proto2cls pt.1 ≠ some pt.2 ∧
      cfg.prototype_rebalancing_threshold ≤ (clsProtoSaturation cfg st).getD pt.2 0 ∧
      (clsProtoSaturation cfg st).getD pt.2 0 ≤ 11 / 10) ∧
    r.moves.length ≤ cfg.num_classes ∧
    (r.anyMoved = true ↔ r.moves ≠ []) ∧
    (∀ q, q ∉ r.moves.map Prod.fst → r.identity.getD q [] = st.identity.getD q []) ∧
    (∀ pt ∈ r.moves,
      r.identity.getD pt.1 [] = (List.replicate cfg.num_classes 0).set pt.2 1 ∧
      (cfg.prototype_initialization_method = "random" →
        r.vectors.getD pt.1 [] = rand pt.1)) := by
  have Hsatlen := clsProtoSaturation_length cfg st
  have Htop : ∀ x ∈ argsortDesc (clsProtoSaturation cfg st), x < cfg.num_classes := by
    intro x hx
    have hx' := mem_argsortDesc hx
    rwa [Hsatlen] at hx'
  have Htoplen : (argsortDesc (clsProtoSaturation cfg st)).length = cfg.num_classes := by
    rw [argsortDesc_length, Hsatlen]
  have Hpn : ∀ x ∈ protoNumsList cfg st, x < cfg.num_prototypes :=
    fun x hx => (mem_protoNumsList hx).1
  have Hbound : ∀ i ∈ argsortAsc ((protoNumsList cfg st).map (protoFrac st)),
      i < (protoNumsList cfg st).length := by
    intro i hi
    have hi' := mem_argsortAsc hi
    rwa [List.length_map] at hi'
  have Hnodup : ((argsortAsc ((protoNumsList cfg st).map (protoFrac st))).map
      (fun i => (protoNumsList cfg st).getD i 0)).Nodup :=
    map_getD_nodup _ (protoNumsList_nodup cfg st) _ (argsortAsc_nodup _) Hbound
  simp only [rebalanceRun] at h
  obtain ⟨s1, s2, s3, s4, _s5, s6, s7, _s8, s9⟩ :=
    rebalanceLoop_spec cfg rand st (clsProtoSaturation cfg st)
      (argsortDesc (clsProtoSaturation cfg st)) (protoNumsList cfg st)
      ((protoNumsList cfg st).map (protoFrac st)) Htop Htoplen Hpn
      (argsortAsc ((protoNumsList cfg st).map (protoFrac st))) Hnodup Hbound
      0 st.identity st.vectors hidn hvecs r h
  refine ⟨s1, s2, ?_, by simpa using s4, s6, s7, s9⟩
  intro pt hpt
  obtain ⟨⟨i, hi, hpe, hfr⟩, hcls, hne, hthr, hsat⟩ := s3 pt hpt
  have hilen : i < (protoNumsList cfg st).length := Hbound i hi
  rw [getD_map_of_lt (protoFrac st) _ i 0 0 hilen, ← hpe] at hfr
  exact ⟨hfr, hcls, hne, hthr, hsat⟩

/-- C2: in every call to `rebalance_prototypes`, every moved prototype has a
nearest-fraction strictly below `prototype_rebalancing_threshold`; after the
call its identity row is zeroed with a single 1 written at the target class;
its prototype vector is reinitialized from the random source when the method
is `random`; when the method is `mean` the vector written by each move is
exactly `classMeanVec` of the target class prototype list over the vectors
current at the move, stated for every loop invocation whose head performs a
move: the moved prototype's final vector equals the mean, over the pre-call
`cls_prototypes[t]`, of the vectors the loop carries when that move runs;
the updated identity matrix and vectors are exactly the ones stored by
`rebalance_prototypes`. -/
theorem C2_move_selection_and_reinit (cfg : RebalConfig) (rand : ℕ → List ℚ)
    (st : RebalState) (r : RebalLoopResult)
    (hidn : st.identity.length = cfg.num_prototypes)
    (hvecs : st.vectors.length = cfg.num_prototypes)
    (h : rebalanceRun cfg rand st = .ok r) :
    (∀ pt ∈ r.moves, protoFrac st pt.1 < cfg.prototype_rebalancing_threshold) ∧
    (∀ pt ∈ r.moves,
      r.identity.getD pt.1 [] = (List.replicate cfg.num_classes 0).set pt.2 1) ∧
    (cfg.prototype_initialization_method = "random" →
      ∀ pt ∈ r.moves, r.vectors.getD pt.1 [] = rand pt.1) ∧
    (cfg.prototype_initialization_method = "mean" →
      ∀ (sat : List ℚ) (top pnl : List ℕ) (frl : List ℚ) (i : ℕ) (rest : List ℕ)
        (clsI : ℕ) (idn vecs : List (List ℚ)) (rl : RebalLoopResult) (t : ℕ),
        (∀ x ∈ top, x < cfg.num_classes) → top.length = cfg.num_classes →
        (∀ x ∈ pnl, x < cfg.num_prototypes) →
        ((i :: rest).map (fun j => pnl.getD j 0)).Nodup →
        (∀ j ∈ i :: rest, j < pnl.length) →
        idn.length = cfg.num_prototypes → vecs.length = cfg.num_prototypes →
        frl.getD i 0 < cfg.prototype_rebalancing_threshold →
        selectTarget cfg st sat top (advanceClsI cfg.num_classes sat top clsI)
          (pnl.getD i 0) = some t →
        rebalanceLoop cfg rand st sat top pnl frl (i :: rest) clsI idn vecs = .ok rl →
        rl.moves.head? = some (pnl.getD i 0, t) ∧
        rl.vectors.getD (pnl.getD i 0) [] =
          classMeanVec cfg.proto_dim vecs (st.clsProtos.getD t [])) ∧
    (∀ ec, ∃ st', rebalancePrototypes cfg rand ec st = .ok st' ∧
      st'.identity = r.identity ∧ st'.vectors = r.vectors) := by
  obtain ⟨_, _, s3, _, _, _, s9⟩ := rebalanceRun_spec cfg rand st hidn hvecs r h
  refine ⟨fun pt hpt => (s3 pt hpt).1, fun pt hpt => (s9 pt hpt).1,
    fun hm pt hpt => (s9 pt hpt).2 hm, ?_, ?_⟩
  · intro hm sat top pnl frl i rest clsI idn vecs rl t
      Htop Htoplen Hpn hnodup hbound hidnl hvecsl hfr hsel hok
    have hpmem : pnl.getD i 0 < cfg.num_prototypes :=
      Hpn _ (getD_mem_of_lt pnl i 0 (hbound i (List.mem_cons_self i rest)))
    have hplenv : pnl.getD i 0 < vecs.length := by rw [hvecsl]; exact hpmem
    have hnR : (rest.map (fun j => pnl.getD j 0)).Nodup := (List.nodup_cons.mp hnodup).2
    have hheadR : pnl.getD i 0 ∉ rest.map (fun j => pnl.getD j 0) :=
      (List.nodup_cons.mp hnodup).1
    have hbR : ∀ j ∈ rest, j < pnl.length :=
      fun j hj => hbound j (List.mem_cons_of_mem _ hj)
    have hm1 : ¬(cfg.prototype_initialization_method = "random") := by
      rw [hm]; decide
    simp only [rebalanceLoop] at hok
    rw [if_neg (not_le.mpr hfr)] at hok
    simp only [hsel] at hok
    rw [if_neg hm1, if_pos hm] at hok
    cases hrec : rebalanceLoop cfg rand st sat top pnl frl rest
        (advanceClsI cfg.num_classes sat top clsI + 1)
        (idn.set (pnl.getD i 0) ((List.replicate cfg.num_classes 0).set t 1))
        (vecs.set (pnl.getD i 0)
          (classMeanVec cfg.proto_dim vecs (st.clsProtos.getD t []))) with
    | error e =>
      simp only [hrec] at hok
      exact Except.noConfusion hok
    | ok r' =>
      simp only [hrec, Except.ok.injEq] at hok
      subst hok
      obtain ⟨_, _, ih3, _, ih5, _, _, ih8, _⟩ :=
        rebalanceLoop_spec cfg rand st sat top pnl frl Htop Htoplen Hpn
          rest hnR hbR (advanceClsI cfg.num_classes sat top clsI + 1)
          (idn.set (pnl.getD i 0) ((List.replicate cfg.num_classes 0).set t 1))
          (vecs.set (pnl.getD i 0)
            (classMeanVec cfg.proto_dim vecs (st.clsProtos.getD t [])))
          (by simpa using hidnl) (by simpa using hvecsl) r' hrec
      have hmovesR : ∀ pt ∈ r'.moves, pt.1 ∈ rest.map (fun j => pnl.getD j 0) := by
        intro pt hpt
        obtain ⟨⟨i', hi', hpe, _⟩, _⟩ := ih3 pt hpt
        exact List.mem_map.mpr ⟨i', hi', hpe.symm⟩
      have hpnotmoves : pnl.getD i 0 ∉ r'.moves.map Prod.fst := by
        intro hmem
        obtain ⟨pt, hpt, hpe⟩ := List.mem_map.mp hmem
        exact hheadR (hpe ▸ hmovesR pt hpt)
      have hpnotrand : pnl.getD i 0 ∉ r'.randomized.map (fun j => pnl.getD j 0) := by
        intro hmem
        obtain ⟨j, hj, hje⟩ := List.mem_map.mp hmem
        exact hheadR (List.mem_map.mpr ⟨j, ih5 j hj, hje⟩)
      refine ⟨rfl, ?_⟩
      rw [ih8 _ hpnotmoves hpnotrand]
      exact getD_set_self vecs _ _ _ hplenv
  · intro ec
    simp only [rebalancePrototypes, h]
    by_cases hmv : r.anyMoved = true ∨ ec = 0
    · rw [if_pos hmv]
      exact ⟨_, rfl, rfl, rfl⟩
    · rw [if_neg hmv]
      exact ⟨_, rfl, rfl, rfl⟩

/-- C9: in a single call to `rebalance_prototypes`, no prototype is
reassigned to its own class, every move targets a class whose minimum
per-prototype saturation fraction lies between the rebalancing threshold and
1.1, and at most `num_classes` prototypes change class. -/
theorem C9_move_targets (cfg : RebalConfig) (rand : ℕ → List ℚ)
    (st : RebalState) (r : RebalLoopResult)
    (hidn : st.identity.length = cfg.num_prototypes)
    (hvecs : st.vectors.length = cfg.num_prototypes)
    (h : rebalanceRun cfg rand st = .ok r) :
    (∀ pt ∈ r.moves,
      st.proto2cls pt.1 ≠ some pt.2 ∧
      cfg.prototype_rebalancing_threshold ≤ (clsProtoSaturation cfg st).getD pt.2 0 ∧
      (clsProtoSaturation cfg st).getD pt.2 0 ≤ 11 / 10) ∧
    r.moves.length ≤ cfg.num_classes := by
  obtain ⟨_, _, s3, s4, _, _, _⟩ := rebalanceRun_spec cfg rand st hidn hvecs r h
  exact ⟨fun pt hpt => ⟨(s3 pt hpt).2.2.1, (s3 pt hpt).2.2.2.1, (s3 pt hpt).2.2.2.2⟩, s4⟩

/-! ## The unimplemented-initialization-method error (C4) -/

/-- The target-class selection does not read the initialization method. -/
lemma selectTarget_method (cfg : RebalConfig) (m : String) (st : RebalState)
    (sat : List ℚ) (top : List ℕ) (clsI protoNum : ℕ) :
    selectTarget { cfg with prototype_initialization_method := m } st sat top clsI protoNum =
      selectTarget cfg st sat top clsI protoNum := rfl

/-- The saturation computation does not read the initialization method. -/
lemma clsProtoSaturation_method (cfg : RebalConfig) (m : String) (st : RebalState) :
    clsProtoSaturation { cfg with prototype_initialization_method := m } st =
      clsProtoSaturation cfg st := rfl

/-- The scanned prototype list does not read the initialization method. -/
lemma protoNumsList_method (cfg : RebalConfig) (m : String) (st : RebalState) :
    protoNumsList { cfg with prototype_initialization_method := m } st =
      protoNumsList cfg st := rfl

/-- The control flow of the move loop does not depend on the initialization
method: if the same call with method `random` performs at least one move, the
call with an unimplemented method stops at its first move with the
`NotImplementedError` message. -/
lemma rebalanceLoop_error_of_twin_moves (cfg : RebalConfig) (rand : ℕ → List ℚ)
    (st : RebalState) (sat : List ℚ) (top : List ℕ) (pn : List ℕ) (fr : List ℚ)
    (hm1 : cfg.prototype_initialization_method ≠ "random")
    (hm2 : cfg.prototype_initialization_method ≠ "mean") :
    ∀ (inds : List ℕ) (clsI : ℕ) (idn vecs idn2 vecs2 : List (List ℚ))
      (r2 : RebalLoopResult),
      rebalanceLoop { cfg with prototype_initialization_method := "random" } rand st
        sat top pn fr inds clsI idn2 vecs2 = .ok r2 →
      r2.moves ≠ [] →
      rebalanceLoop cfg rand st sat top pn fr inds clsI idn vecs =
        .error (String.append "Not implemented: " cfg.prototype_initialization_method) := by
  intro inds
  induction inds with
  | nil =>
    intro clsI idn vecs idn2 vecs2 r2 h2 hmv
    simp only [rebalanceLoop, Except.ok.injEq] at h2
    subst h2
    exact absurd rfl hmv
  | cons i rest ih =>
    intro clsI idn vecs idn2 vecs2 r2 h2 hmv
    simp only [rebalanceLoop] at h2 ⊢
    rw [selectTarget_method] at h2
    by_cases hbr : cfg.prototype_rebalancing_threshold ≤ fr.getD i 0
    · rw [if_pos hbr, Except.ok.injEq] at h2
      subst h2
      exact absurd rfl hmv
    · rw [if_neg hbr] at h2 ⊢
      cases hsel : selectTarget cfg st sat top
          (advanceClsI cfg.num_classes sat top clsI) (pn.getD i 0) with
      | none =>
        rw [hsel] at h2
        by_cases hrnd : cfg.randomize_all_below_threshold
        · simp only [if_pos hrnd] at h2 ⊢
          cases hrec2 : rebalanceLoop { cfg with prototype_initialization_method := "random" }
              rand st sat top pn fr rest (advanceClsI cfg.num_classes sat top clsI)
              idn2 (vecs2.set (pn.getD i 0) (rand (pn.getD i 0))) with
          | error e =>
            simp only [hrec2] at h2
            exact Except.noConfusion h2
          | ok r2' =>
            simp only [hrec2, Except.ok.injEq] at h2
            subst h2
            have hbad := ih (advanceClsI cfg.num_classes sat top clsI) idn
              (vecs.set (pn.getD i 0) (rand (pn.getD i 0))) idn2
              (vecs2.set (pn.getD i 0) (rand (pn.getD i 0))) r2' hrec2 (by simpa using hmv)
            rw [hbad]
        · simp only [if_neg hrnd, Except.ok.injEq] at h2
          subst h2
          exact absurd rfl hmv
      | some t =>
        simp only [hm1, hm2, ite_false, if_false]

/-- C4: if the same `rebalance_prototypes` call with initialization method
`random` would move at least one prototype (so the call reaches the
reinitialization of a moved prototype), then with a method that is neither
`random` nor `mean` the call raises `NotImplementedError` directly, the error
propagates out of `rebalance_prototypes`, and it is not caught in
`on_validation_epoch_end` either. -/
theorem C4_unimplemented_method_raises (cfg : RebalConfig) (rand : ℕ → List ℚ)
    (st : RebalState)
    (hm1 : cfg.prototype_initialization_method ≠ "random")
    (hm2 : cfg.prototype_initialization_method ≠ "mean")
    (r : RebalLoopResult)
    (hrun : rebalanceRun { cfg with prototype_initialization_method := "random" } rand st
      = .ok r)
    (hmv : r.moves ≠ []) :
    rebalanceRun cfg rand st =
      .error (String.append "Not implemented: " cfg.prototype_initialization_method) ∧
    (∀ ec, rebalancePrototypes cfg rand ec st =
      .error (String.append "Not implemented: " cfg.prototype_initialization_method)) ∧
    (∀ (phase : ℤ) (gs : ℕ) (ms : ModuleState), ms.rebal = st →
      qualifiesRebalance cfg gs = true →
      ms.rebalance_epoch_counter % cfg.prototype_rebalance_every = 0 →
      onValidationEpochEnd cfg rand phase gs ms =
        .error (String.append "Not implemented: " cfg.prototype_initialization_method)) := by
  simp only [rebalanceRun, clsProtoSaturation_method, protoNumsList_method] at hrun
  have herr : rebalanceRun cfg rand st =
      .error (String.append "Not implemented: " cfg.prototype_initialization_method) := by
    simp only [rebalanceRun]
    exact rebalanceLoop_error_of_twin_moves cfg rand st _ _ _ _ hm1 hm2 _ 0
      st.identity st.vectors st.identity st.vectors r hrun hmv
  have hprot : ∀ ec, rebalancePrototypes cfg rand ec st =
      .error (String.append "Not implemented: " cfg.prototype_initialization_method) := by
    intro ec
    simp only [rebalancePrototypes, herr]
  refine ⟨herr, hprot, ?_⟩
  intro phase gs ms hms hq hmod
  unfold onValidationEpochEnd
  rw [hq]
  simp only [if_true, hmod, ite_true, hms, hprot ms.rebalance_epoch_counter]

/-- C8: `rebalance_prototypes` preserves the invariant that every prototype
row of the class-identity matrix has exactly one entry equal to 1, and when
any prototype moved the helper collections are rebuilt so that
`proto2cls[p] = c` exactly when `prototype_class_identity[p, c] = 1` and
`cls_prototypes[c]` contains exactly the prototypes whose entry for `c` is
1. -/
theorem C8_one_hot_identity (cfg : RebalConfig) (rand : ℕ → List ℚ) (st : RebalState)
    (ec : ℕ) (st' : RebalState)
    (hidn : st.identity.length = cfg.num_prototypes)
    (hvecs : st.vectors.length = cfg.num_prototypes)
    (hrows : ∀ p < cfg.num_prototypes,
      oneHotCount (st.identity.getD p []) cfg.num_classes = 1)
    (h : rebalancePrototypes cfg rand ec st = .ok st') :
    (∀ p < cfg.num_prototypes,
      oneHotCount (st'.identity.getD p []) cfg.num_classes = 1) ∧
    (∀ r, rebalanceRun cfg rand st = .ok r → r.anyMoved = true →
      (∀ p c, c < cfg.num_classes →
        (st'.proto2cls p = some c ↔ idAt st'.identity p c = 1)) ∧
      (∀ p c, c < cfg.num_classes →
        (p ∈ st'.clsProtos.getD c [] ↔
          p < st'.identity.length ∧ idAt st'.identity p c = 1))) := by
  rcases hrun : rebalanceRun cfg rand st with e | r0
  · simp only [rebalancePrototypes, hrun] at h
    exact Except.noConfusion h
  · obtain ⟨s1, _s2, s3, _s4, _s6, s7, s9⟩ := rebalanceRun_spec cfg rand st hidn hvecs r0 hrun
    have hone : ∀ p < cfg.num_prototypes,
        oneHotCount (r0.identity.getD p []) cfg.num_classes = 1 := by
      intro p hp
      by_cases hmem : p ∈ r0.moves.map Prod.fst
      · obtain ⟨pt, hpt, hpe⟩ := List.mem_map.mp hmem
        have hrow := (s9 pt hpt).1
        rw [hpe] at hrow
        rw [hrow]
        exact oneHotCount_replicate_set _ _ (s3 pt hpt).2.1
      · rw [s7 p hmem]
        exact hrows p hp
    simp only [rebalancePrototypes, hrun] at h
    by_cases hb : r0.anyMoved = true ∨ ec = 0
    · rw [if_pos hb, Except.ok.injEq] at h
      subst h
      refine ⟨hone, ?_⟩
      intro r hr hmv
      obtain rfl : r0 = r := Except.ok.inj hr
      constructor
      · intro p c hc
        exact buildProto2cls_eq_some_iff r0.identity cfg.num_classes
          (fun q hq => hone q (by omega)) p c hc
      · intro p c hc
        exact buildClsProtos_mem r0.identity cfg.num_classes p c hc
    · rw [if_neg hb, Except.ok.injEq] at h
      subst h
      refine ⟨hone, ?_⟩
      intro r hr hmv
      obtain rfl : r0 = r := Except.ok.inj hr
      exact absurd (Or.inl hmv) hb

/-! ## Concrete witness inputs for the rebalancing claims -/

/-- Witness rebalancing state: two prototypes, one per class; prototype 0 is
never the nearest one (fraction 0), prototype 1 always is (fraction 1). -/
def rebalStW : RebalState :=
  { identity := [[1, 0], [0, 1]]
    vectors := [[3], [5]]
    clsProtos := [[0], [1]]
    proto2cls := fun p => [0, 1][p]?
    stats := { total := fun _ => 1, nearest := fun p => [0, 1].getD p 0 } }

/-- Witness configuration: threshold 1/2, method `mean`. -/
def rebalCfgW : RebalConfig :=
  { num_prototypes := 2, num_classes := 2, proto_dim := 1
    prototype_rebalancing := some 5
    prototype_rebalancing_threshold := 1 / 2
    prototype_initialization_method := "mean"
    prototype_rebalance_every := 2
    randomize_all_below_threshold := false }

/-- Witness random oracle. -/
def rebalRandW : ℕ → List ℚ := fun p => [(p : ℚ)]

/-- Loop result of the witness run: prototype 0 moves to class 1 and takes
the class mean `[5]`. -/
def rebalResW : RebalLoopResult :=
  { identity := [[0, 1], [0, 1]]
    vectors := [[5], [5]]
    anyMoved := true
    randomized := []
    moves := [(0, 1)] }

/-- Concrete evaluation of the witness rebalancing run. -/
lemma rebalanceRunW : rebalanceRun rebalCfgW rebalRandW rebalStW = .ok rebalResW := by
  have hsat : clsProtoSaturation rebalCfgW rebalStW = [0, 1] := by
    norm_num [clsProtoSaturation, rebalCfgW, rebalStW, protoFrac, List.range_succ,
      List.replicate, List.set]
  have hpn : protoNumsList rebalCfgW rebalStW = [0, 1] := by
    norm_num [protoNumsList, rebalCfgW, rebalStW, List.range_succ]
  rw [rebalanceRun, hsat, hpn]
  norm_num [protoFrac, rebalStW, argsortAsc, argsortDesc, List.insertionSort,
    List.orderedInsert, rebalanceLoop, advanceClsI, advanceClsIAux, selectTarget,
    classMeanVec, vecAdd, rebalCfgW, rebalRandW, rebalResW, List.replicate, List.set]
  rw [if_neg (by decide : ¬("mean" = "random"))]

/-- Concrete evaluation of the witness move loop at its literal arguments:
saturation `[0, 1]`, descending class order `[1, 0]`, prototype numbers
`[0, 1]`, fractions `[0, 1]`, sorted indices `[0, 1]`. -/
lemma rebalanceLoopW :
    rebalanceLoop rebalCfgW rebalRandW rebalStW [0, 1] [1, 0] [0, 1] [0, 1]
      [0, 1] 0 rebalStW.identity rebalStW.vectors = .ok rebalResW := by
  norm_num [rebalanceLoop, advanceClsI, advanceClsIAux, selectTarget,
    classMeanVec, vecAdd, rebalCfgW, rebalRandW, rebalResW, rebalStW,
    List.replicate, List.set]
  rw [if_neg (by decide : ¬("mean" = "random"))]

/-- Witness for C2: the moved prototype had fraction strictly below the
threshold, and on the witness run (method `mean`) the vector the move writes
for prototype 0 is the class mean `[5]` of class 1's prototype vectors. -/
theorem C2_move_selection_and_reinit_witness :
    protoFrac rebalStW 0 < rebalCfgW.prototype_rebalancing_threshold ∧
    rebalResW.vectors.getD 0 [] =
      classMeanVec rebalCfgW.proto_dim rebalStW.vectors
        (rebalStW.clsProtos.getD 1 []) := by
  have hC2 := C2_move_selection_and_reinit rebalCfgW rebalRandW rebalStW rebalResW
    (by decide) (by decide) rebalanceRunW
  refine ⟨hC2.1 (0, 1) (by decide), ?_⟩
  have h4 := hC2.2.2.2.1 rfl [0, 1] [1, 0] [0, 1] [0, 1] 0 [1] 0
    rebalStW.identity rebalStW.vectors rebalResW 1
    (by decide) (by decide) (by decide) (by decide) (by decide)
    (by decide) (by decide)
    (by norm_num [rebalCfgW])
    (by norm_num [selectTarget, advanceClsI, advanceClsIAux, rebalCfgW, rebalStW])
    rebalanceLoopW
  exact h4.2

/-- Witness for C9: the witness run moves at most `num_classes` prototypes. -/
theorem C9_move_targets_witness :
    rebalResW.moves.length ≤ rebalCfgW.num_classes :=
  (C9_move_targets rebalCfgW rebalRandW rebalStW rebalResW (by decide) (by decide)
    rebalanceRunW).2

/-- State stored by the witness `rebalance_prototypes` call, with the helper
collections rebuilt. -/
def rebalStW' : RebalState :=
  { identity := [[0, 1], [0, 1]]
    vectors := [[5], [5]]
    clsProtos := buildClsProtos [[0, 1], [0, 1]] 2
    proto2cls := buildProto2cls [[0, 1], [0, 1]] 2
    stats := rebalStW.stats }

/-- Concrete evaluation of the witness `rebalance_prototypes` call. -/
lemma rebalancePrototypesW :
    rebalancePrototypes rebalCfgW rebalRandW 3 rebalStW = .ok rebalStW' := by
  simp only [rebalancePrototypes, rebalanceRunW]
  rw [if_pos (Or.inl (by norm_num [rebalResW]))]
  simp [rebalResW, rebalStW', rebalCfgW]

/-- Witness for C8: the one-hot invariant holds for prototype 0 after the
witness rebalance. -/
theorem C8_one_hot_identity_witness :
    oneHotCount (rebalStW'.identity.getD 0 []) rebalCfgW.num_classes = 1 :=
  (C8_one_hot_identity rebalCfgW rebalRandW rebalStW 3 rebalStW' (by decide) (by decide)
    (by decide) rebalancePrototypesW).1 0 (by decide)

/-- Witness configuration with an unimplemented initialization method. -/
def rebalCfgBadW : RebalConfig :=
  { rebalCfgW with prototype_initialization_method := "huh" }

/-- Loop result of the witness run with method `random`: prototype 0 moves to
class 1 and takes the random vector `[0]`. -/
def rebalResRandW : RebalLoopResult :=
  { identity := [[0, 1], [0, 1]]
    vectors := [[0], [5]]
    anyMoved := true
    randomized := []
    moves := [(0, 1)] }

/-- Concrete evaluation of the witness run with method `random`. -/
lemma rebalanceRunRandW :
    rebalanceRun { rebalCfgBadW with prototype_initialization_method := "random" }
      rebalRandW rebalStW = .ok rebalResRandW := by
  have hsat : clsProtoSaturation
      { rebalCfgBadW with prototype_initialization_method := "random" } rebalStW = [0, 1] := by
    norm_num [clsProtoSaturation, rebalCfgBadW, rebalCfgW, rebalStW, protoFrac,
      List.range_succ, List.replicate, List.set]
  have hpn : protoNumsList
      { rebalCfgBadW with prototype_initialization_method := "random" } rebalStW = [0, 1] := by
    norm_num [protoNumsList, rebalCfgBadW, rebalCfgW, rebalStW, List.range_succ]
  rw [rebalanceRun, hsat, hpn]
  norm_num [protoFrac, rebalStW, argsortAsc, argsortDesc, List.insertionSort,
    List.orderedInsert, rebalanceLoop, advanceClsI, advanceClsIAux, selectTarget,
    classMeanVec, vecAdd, rebalCfgBadW, rebalCfgW, rebalRandW, rebalResRandW,
    List.replicate, List.set]

/-- Witness for C4: with method `huh` the witness run raises the
`NotImplementedError` message. -/
theorem C4_unimplemented_method_raises_witness :
    rebalanceRun rebalCfgBadW rebalRandW rebalStW =
      .error (String.append "Not implemented: "
        rebalCfgBadW.prototype_initialization_method) :=
  (C4_unimplemented_method_raises rebalCfgBadW rebalRandW rebalStW (by decide) (by decide)
    rebalResRandW rebalanceRunRandW (by decide)).1

end ProtoPNet
